import Mathlib

/-!
Verification of the NoteTube transcript-processing and job-orchestration
pipeline against its specification.

The Python sources are shallowly embedded:
* Python `str` values are embedded as `List Char` (Python indexing and
  slicing become list operations).
* Python `float` time values are embedded as `ℚ` (the algorithms use only
  `+ - * / min max` and comparisons).
* Python dicts with a fixed key set become structures; `d.get(k, default)`
  is a plain field access (a missing key equals the default value).
* Loops become folds or primitive recursion; the translation of each loop
  is documented at its definition.
-/

namespace NoteTube

/-! ## Python text primitives

`pyStrip`, `pySplit` and `pyJoin` embed Python's `str.strip()`,
`str.split()` (no arguments: split on whitespace runs, dropping empties)
and `" ".join(...)`.  Character classes use Lean's `Char.isWhitespace`,
`Char.isDigit`, `Char.isAlpha`, `Char.isAlphanum` for the ASCII texts the
pipeline handles. -/

/-- Python `str.strip()`: drop leading and trailing whitespace. -/
def pyStrip (l : List Char) : List Char :=
  ((l.dropWhile Char.isWhitespace).reverse.dropWhile Char.isWhitespace).reverse

/-- Helper for `pySplit`: `acc` holds the (reversed) current word. -/
def pySplitAux : List Char → List Char → List (List Char)
  | acc, [] => if acc = [] then [] else [acc.reverse]
  | acc, c :: cs =>
    if c.isWhitespace then
      if acc = [] then pySplitAux [] cs else acc.reverse :: pySplitAux [] cs
    else
      pySplitAux (c :: acc) cs

/-- Python `str.split()` with no separator: split on whitespace runs,
dropping empty pieces. -/
def pySplit (l : List Char) : List (List Char) :=
  pySplitAux [] l

/-- Python `" ".join(texts)`. -/
def pyJoin : List (List Char) → List Char
  | [] => []
  | [t] => t
  | t :: ts => t ++ ' ' :: pyJoin ts

/-- Lowercase a Python string (`str.lower()`). -/
def pyLower (l : List Char) : List Char := l.map Char.toLower

/-! ## Data model (`transcript_processor.py`)

Segments/sentences are dicts `{text, start, duration}`; topic candidates
are dicts with `title`, `start_time`, optional `score` (`.get` defaults:
`""`, `0`, `0`). -/

structure Segment where
  text : List Char
  start : ℚ
  duration : ℚ
  deriving DecidableEq, Repr

structure Candidate where
  title : List Char
  start_time : ℚ
  score : ℚ
  deriving DecidableEq, Repr

/-! ## Candidate Deduplicator (`deduplicate_candidates`, lines 393-411)

```python
seen = set()
result = []
for candidate in candidates:
    value = candidate.get(key, "")
    if value not in seen:
        seen.add(value)
        result.append(candidate)
return result
```
with the default `key = "title"`.  The loop is embedded with the `seen`
set as an accumulated list. -/

def deduplicateAux : List (List Char) → List Candidate → List Candidate
  | _, [] => []
  | seen, c :: rest =>
    if c.title ∈ seen then deduplicateAux seen rest
    else c :: deduplicateAux (c.title :: seen) rest

/-- `deduplicate_candidates(candidates)` with the default key `"title"`. -/
def deduplicate_candidates (candidates : List Candidate) : List Candidate :=
  deduplicateAux [] candidates

/-- Normalized title in the spec's words: case- and whitespace-insensitive
comparison key ("key = normalized title (case/whitespace-insensitive)").
Modelled from the spec; the source itself performs no normalization. -/
def specNormalizeTitle (t : List Char) : List Char :=
  pyLower (pyStrip t)

/-! ## Configuration (`TranscriptConfig`, lines 16-62)

Dataclass of constants.  `FIRST_SEGMENT_MAX_TOPICS` and
`SECOND_SEGMENT_MAX_TOPICS` are `Option`s because the source uses `None`
to mean "no limit"; both default to `None`. -/

structure TranscriptConfig where
  MAX_SENTENCE_DURATION_SECONDS : ℚ
  MAX_SENTENCE_WORDS : ℕ
  MAX_SEGMENTS_PER_SENTENCE : ℕ
  ABBREVIATIONS : List (List Char)
  FALSE_PERIOD_SUFFIXES : List (List Char)
  CHUNK_DURATION_SECONDS : ℤ
  CHUNK_OVERLAP_SECONDS : ℤ
  MIN_CHUNK_STEP_SECONDS : ℤ
  TEMPORAL_BOUNDARY_FRAC : ℚ
  FIRST_SEGMENT_MAX_TOPICS : Option ℕ
  SECOND_SEGMENT_MAX_TOPICS : Option ℕ

/-- The abbreviation set installed by `__post_init__`. -/
def defaultAbbreviations : List (List Char) :=
  ["dr".data, "mr".data, "mrs".data, "ms".data, "prof".data, "vs".data,
   "etc".data, "inc".data, "ltd".data, "jr".data, "sr".data, "st".data,
   "ave".data, "blvd".data, "apt".data, "no".data, "vol".data, "pg".data,
   "fig".data, "ch".data, "sec".data, "dept".data, "govt".data,
   "univ".data, "corp".data, "co".data, "jan".data, "feb".data,
   "mar".data, "apr".data, "jun".data, "jul".data, "aug".data,
   "sep".data, "oct".data, "nov".data, "dec".data]

/-- The TLD / file-extension set installed by `__post_init__`. -/
def defaultFalsePeriodSuffixes : List (List Char) :=
  [".com".data, ".org".data, ".net".data, ".ai".data, ".io".data,
   ".co".data, ".edu".data, ".gov".data, ".js".data, ".ts".data,
   ".py".data, ".rb".data, ".go".data, ".rs".data, ".cpp".data,
   ".c".data, ".h".data, ".html".data, ".css".data, ".json".data,
   ".xml".data, ".yaml".data, ".yml".data, ".md".data, ".txt".data,
   ".pdf".data, ".doc".data, ".docx".data, ".xls".data, ".xlsx".data,
   ".ppt".data, ".jpg".data, ".jpeg".data, ".png".data, ".gif".data,
   ".svg".data, ".mp4".data, ".mp3".data]

/-- The module-level `CONFIG = TranscriptConfig()` instance
(`TEMPORAL_BOUNDARY_FRAC` is the source's `TEMPORAL_BOUNDARY_RATIO = 0.6`). -/
def CONFIG : TranscriptConfig :=
  { MAX_SENTENCE_DURATION_SECONDS := 24
    MAX_SENTENCE_WORDS := 80
    MAX_SEGMENTS_PER_SENTENCE := 20
    ABBREVIATIONS := defaultAbbreviations
    FALSE_PERIOD_SUFFIXES := defaultFalsePeriodSuffixes
    CHUNK_DURATION_SECONDS := 5 * 60
    CHUNK_OVERLAP_SECONDS := 45
    MIN_CHUNK_STEP_SECONDS := 60
    TEMPORAL_BOUNDARY_FRAC := 6 / 10
    FIRST_SEGMENT_MAX_TOPICS := none
    SECOND_SEGMENT_MAX_TOPICS := none }

/-! ## Sentence boundary detection (lines 65-129)

`is_sentence_ending_period(text, position)` scans outward from a `.`:
* decimal digits on both sides exclude it;
* the maximal alphanumeric run after it (the source also computes an
  `ext_start` backward scan but never uses it for `potential_ext`) forms
  `text[position:ext_end]`, excluded when in `FALSE_PERIOD_SUFFIXES`;
* the maximal alphabetic run before it, lowercased, excluded when in
  `ABBREVIATIONS`.
The `while` scans are embedded as `takeWhile` on the suffix/reversed
prefix. -/

def is_sentence_ending_period (text : List Char) (position : ℕ) : Bool :=
  if position ≥ text.length then false
  else if ¬ (text.getD position ' ' = '.') then false
  else
    -- decimal numbers: digit before AND after
    if 0 < position ∧ position < text.length - 1 ∧
        (text.getD (position - 1) ' ').isDigit ∧
        (text.getD (position + 1) ' ').isDigit then false
    else
      -- TLDs and file extensions: text[position:ext_end]
      let potential_ext :=
        pyLower ('.' :: (text.drop (position + 1)).takeWhile Char.isAlphanum)
      if potential_ext ∈ CONFIG.FALSE_PERIOD_SUFFIXES then false
      else
        -- abbreviations: word before the period, text[word_start:position]
        let word_before_period :=
          pyLower (((text.take position).reverse.takeWhile Char.isAlpha).reverse)
        if word_before_period ∈ CONFIG.ABBREVIATIONS then false
        else true

/-- `find_sentence_boundary(text)`: index of the first `?`/`!`, or of the
first `.` accepted by `is_sentence_ending_period`; `None` embeds the
source's `-1`. -/
def find_sentence_boundary (text : List Char) : Option ℕ :=
  (List.range text.length).find? fun i =>
    let c := text.getD i ' '
    if c = '?' ∨ c = '!' then true
    else c = '.' && is_sentence_ending_period text i

/-! ## Sentence Merger (`merge_segments_into_sentences`, lines 132-253)

The loop state (`sentences`, `current_texts`, `current_start`,
`current_duration`, `current_segment_count`) becomes a structure and the
`for segment in segments` loop a `foldl`.  Sentences produced have the
same `{text, start, duration}` shape as input segments, so output
sentences are `Segment` values as well. -/

structure MergeState where
  sentences : List Segment
  cur_texts : List (List Char)
  cur_start : Option ℚ
  cur_duration : ℚ
  cur_count : ℕ

def initMergeState : MergeState :=
  { sentences := [], cur_texts := [], cur_start := none,
    cur_duration := 0, cur_count := 0 }

/-- `finalize_sentence()`: emit the accumulated sentence (when any text
was accumulated) and reset the accumulator.  The source reads
`current_start` which is always set when `current_texts` is nonempty;
`getD 0` stands for that `None`-free read. -/
def finalizeSentence (st : MergeState) : MergeState :=
  { sentences :=
      st.sentences ++
        (if st.cur_texts = [] then []
         else [{ text := pyJoin st.cur_texts,
                 start := st.cur_start.getD 0,
                 duration := st.cur_duration }])
    cur_texts := [], cur_start := none, cur_duration := 0, cur_count := 0 }

/-- `should_force_split()`. -/
def shouldForceSplit (config : TranscriptConfig) (st : MergeState) : Bool :=
  if st.cur_duration ≥ config.MAX_SENTENCE_DURATION_SECONDS then true
  else if st.cur_count ≥ config.MAX_SEGMENTS_PER_SENTENCE then true
  else
    decide (((st.cur_texts.map fun t => (pySplit t).length).sum)
      ≥ config.MAX_SENTENCE_WORDS)

/-- `if current_start is None: current_start = start`. -/
def setStart (st : MergeState) (seg : Segment) : MergeState :=
  if st.cur_start = none then { st with cur_start := some seg.start } else st

/-- `if should_force_split(): finalize_sentence(); current_start = start`. -/
def forceSplitStep (config : TranscriptConfig) (st : MergeState)
    (seg : Segment) : MergeState :=
  if shouldForceSplit config st then
    { finalizeSentence st with cur_start := some seg.start }
  else st

/-- Append the segment to the accumulator (`current_texts.append(text)`;
`current_duration += duration`; `current_segment_count += 1`). -/
def appendSeg (st : MergeState) (text : List Char) (seg : Segment) :
    MergeState :=
  { st with
    cur_texts := st.cur_texts ++ [text],
    cur_duration := st.cur_duration + seg.duration,
    cur_count := st.cur_count + 1 }

/-- One iteration of the `for segment in segments` loop.  Both branches of
the source's final `if not remaining_after_boundary` call
`finalize_sentence()` ("for simplicity, just finalize the whole thing"),
so a found boundary always finalizes. -/
def mergeStep (config : TranscriptConfig) (st : MergeState) (seg : Segment) :
    MergeState :=
  let text := pyStrip seg.text
  if text = [] then st
  else
    let st3 := appendSeg (forceSplitStep config (setStart st seg) seg) text seg
    if (find_sentence_boundary (pyJoin st3.cur_texts)).isSome then
      finalizeSentence st3
    else st3

/-- Python `range(0, len, chunk_size)` (the start indices of the safety-net
word chunks).  `chunk_size = 0` would raise in Python; the source only uses
`MAX_SENTENCE_WORDS = 80`. -/
def wordChunkStarts (chunk_size len : ℕ) : List ℕ :=
  (List.range ((len + chunk_size - 1) / chunk_size)).map (· * chunk_size)

/-- The safety-net split of one over-long sentence (lines 237-251):
`words[i:i + chunk_size]` slices with proportionally divided duration
(the Python locals `words = sentence.text.split()`,
`chunk_words = words[i:i + chunk_size]` and `chunk_ratio` are written out
in place). -/
def safetyNetSplit (config : TranscriptConfig) (sentence : Segment) :
    List Segment :=
  if sentence.duration > config.MAX_SENTENCE_DURATION_SECONDS then
    (wordChunkStarts config.MAX_SENTENCE_WORDS
        (pySplit sentence.text).length).map fun i =>
      { text := pyJoin (((pySplit sentence.text).drop i).take
          config.MAX_SENTENCE_WORDS),
        start := sentence.start +
          (if pySplit sentence.text = [] then 0
           else sentence.duration * i / (pySplit sentence.text).length),
        duration := sentence.duration *
          (if pySplit sentence.text = [] then 1
           else ((((pySplit sentence.text).drop i).take
              config.MAX_SENTENCE_WORDS).length : ℚ) /
             (pySplit sentence.text).length) }
  else [sentence]

/-- `merge_segments_into_sentences(segments, config)`. -/
def merge_segments_into_sentences (segments : List Segment)
    (config : TranscriptConfig) : List Segment :=
  if segments = [] then []
  else
    let st := segments.foldl (mergeStep config) initMergeState
    -- "Finalize any remaining text"
    let st := if st.cur_texts ≠ [] then finalizeSentence st else st
    -- "Apply safety net: break any remaining long sentences"
    st.sentences.flatMap (safetyNetSplit config)

/-! ## Window Chunker (`chunk_transcript`, lines 260-357)

The `while window_start < video_duration` loop starts at `0.0` and adds the
integer `step` each iteration, so iteration `k` sees
`window_start = k * step` and the loop body runs exactly for
`k < ⌈video_duration / step⌉` (the trailing
`if window_start >= video_duration: break` repeats the loop condition).
A chunk is appended only when its window holds at least one segment, with
`chunk_index` counting appended chunks. -/

structure Chunk where
  chunk_index : ℕ
  start_time : ℚ
  end_time : ℚ
  segments : List Segment
  deriving DecidableEq, Repr

/-- Segments whose `start` falls in `[window_start, window_end)`. -/
def windowSegs (segments : List Segment) (window_start window_end : ℚ) :
    List Segment :=
  segments.filter fun seg =>
    decide (window_start ≤ seg.start) && decide (seg.start < window_end)

/-- Number of iterations of the sliding-window loop. -/
def numWindows (video_duration : ℚ) (step : ℤ) : ℕ :=
  (⌈video_duration / (step : ℚ)⌉).toNat

/-- The window `[k*step, min(k*step + dur, video_duration))` of iteration `k`. -/
def windowAt (video_duration : ℚ) (dur step : ℤ) (k : ℕ) : ℚ × ℚ :=
  ((k : ℚ) * step, min ((k : ℚ) * step + dur) video_duration)

/-- The windows of the sliding pass that hold at least one segment
(only these get a chunk appended: `if chunk_segments:`). -/
def keptWindows (segments : List Segment) (video_duration : ℚ)
    (dur step : ℤ) : List (ℚ × ℚ) :=
  ((List.range (numWindows video_duration step)).map
      (windowAt video_duration dur step)).filter
    fun w => decide (windowSegs segments w.1 w.2 ≠ [])

/-- Decidable form of "every window of the sliding pass holds at least one
segment". -/
def allWindowsHaveSegs (segments : List Segment) (video_duration : ℚ)
    (dur step : ℤ) : Bool :=
  (List.range (numWindows video_duration step)).all fun k =>
    decide (windowSegs segments (windowAt video_duration dur step k).1
      (windowAt video_duration dur step k).2 ≠ [])

/-- The chunks appended by the sliding-window loop: one per nonempty
window, `chunk_index` counting the appended chunks in order. -/
def slidingChunks (segments : List Segment) (video_duration : ℚ)
    (dur step : ℤ) : List Chunk :=
  let kept := keptWindows segments video_duration dur step
  (List.range kept.length).map fun i =>
    let w := kept.getD i (0, 0)
    { chunk_index := i, start_time := w.1, end_time := w.2,
      segments := windowSegs segments w.1 w.2 }

/-- `effective_duration = max(180, chunk_duration)` ("At least 3 minutes"). -/
def effDuration (chunk_duration : ℤ) : ℤ := max 180 chunk_duration

/-- `effective_overlap = min(max(overlap, 45), effective_duration // 2)`
(Python `//` on the nonnegative `effective_duration` is `Int.ediv`). -/
def effOverlap (chunk_duration overlap : ℤ) : ℤ :=
  min (max overlap 45) (effDuration chunk_duration / 2)

/-- `step = max(MIN_CHUNK_STEP_SECONDS, effective_duration - effective_overlap)`. -/
def chunkStep (config : TranscriptConfig) (chunk_duration overlap : ℤ) : ℤ :=
  max config.MIN_CHUNK_STEP_SECONDS
    (effDuration chunk_duration - effOverlap chunk_duration overlap)

/-- `chunks[-1]["end_time"] if chunks else 0`. -/
def lastChunkEnd (chunks : List Chunk) : ℚ :=
  match chunks.getLast? with
  | none => 0
  | some c => c.end_time

/-- The tail chunk's segment filter:
`[seg for seg in segments if seg["start"] >= last_chunk_end - overlap]`
(note: the *raw* `overlap` argument, not the effective one). -/
def tailSegments (segments : List Segment) (last_chunk_end : ℚ)
    (overlap : ℤ) : List Segment :=
  segments.filter fun seg =>
    decide (seg.start ≥ last_chunk_end - (overlap : ℚ))

/-- `chunk_transcript(segments, video_duration, chunk_duration, overlap,
config)`; the two int parameters default to the config's 300 and 45 at the
call sites. -/
def chunk_transcript (segments : List Segment) (video_duration : ℚ)
    (chunk_duration overlap : ℤ) (config : TranscriptConfig) : List Chunk :=
  if segments = [] then []
  else
    let effective_duration : ℤ := effDuration chunk_duration
    let step : ℤ := chunkStep config chunk_duration overlap
    if video_duration ≤ (effective_duration : ℚ) then
      [{ chunk_index := 0, start_time := 0, end_time := video_duration,
         segments := segments }]
    else
      let chunks := slidingChunks segments video_duration effective_duration step
      -- "Ensure tail is captured - if last segment isn't in any chunk"
      match segments.getLast? with
      | none => chunks
      | some lastSeg =>
        let last_chunk_end : ℚ := lastChunkEnd chunks
        if lastSeg.start ≥ last_chunk_end then
          let tail_segs := tailSegments segments last_chunk_end overlap
          if tail_segs = [] then chunks
          else
            chunks ++ [{ chunk_index := chunks.length,
                         start_time := last_chunk_end - (overlap : ℚ),
                         end_time := video_duration,
                         segments := tail_segs }]
        else chunks

/-! ## Temporal distribution (lines 364-495) -/

/-- `split_by_temporal_boundary(candidates, video_duration, boundary_frac)`
(the source calls the third argument `boundary_ratio`). -/
def split_by_temporal_boundary (candidates : List Candidate)
    (video_duration : ℚ) (boundary_frac : ℚ) :
    List Candidate × List Candidate :=
  let boundary := video_duration * boundary_frac
  (candidates.filter fun c => decide (c.start_time < boundary),
   candidates.filter fun c => decide (c.start_time ≥ boundary))

/-- Python `sorted(l, key=...)` is a stable sort; `List.mergeSort` with the
corresponding total preorder is its embedding. -/
def pySortByStart (l : List Candidate) : List Candidate :=
  l.mergeSort fun a b => decide (a.start_time ≤ b.start_time)

/-- `sorted(l, key=lambda x: x.get("score", 0), reverse=True)`: stable
descending sort by score. -/
def pySortByScoreDesc (l : List Candidate) : List Candidate :=
  l.mergeSort fun a b => decide (b.score ≤ a.score)

/-- Python `config.X or n` for `X : Optional[int]`: `None` and `0` are
falsy. -/
def pyOrElse (v : Option ℕ) (n : ℕ) : ℕ :=
  match v with
  | none => n
  | some 0 => n
  | some k => k

/-- `apply_temporal_distribution(candidates, video_duration,
requested_topics, config)` (lines 414-495). -/
def apply_temporal_distribution (candidates : List Candidate)
    (video_duration : ℚ) (requested_topics : ℕ)
    (config : TranscriptConfig) : List Candidate :=
  if candidates = [] then []
  else if video_duration < 300 then
    -- short videos: top candidates by score, re-sorted by time
    pySortByStart ((pySortByScoreDesc candidates).take requested_topics)
  else
    let split := split_by_temporal_boundary candidates video_duration
      config.TEMPORAL_BOUNDARY_FRAC
    let first_segment := split.1
    let second_segment := split.2
    if config.FIRST_SEGMENT_MAX_TOPICS = none ∧
        config.SECOND_SEGMENT_MAX_TOPICS = none then
      -- "No limits - return all unique candidates sorted by time"
      pySortByStart candidates
    else
      let first_max := pyOrElse config.FIRST_SEGMENT_MAX_TOPICS
        first_segment.length
      let second_max := pyOrElse config.SECOND_SEGMENT_MAX_TOPICS
        second_segment.length
      let first_target := min first_max requested_topics
      let second_target := min second_max (requested_topics - first_target)
      if first_segment = [] then
        pySortByStart ((pySortByScoreDesc second_segment).take requested_topics)
      else if second_segment = [] then
        pySortByStart ((pySortByScoreDesc first_segment).take requested_topics)
      else
        pySortByStart
          ((pySortByScoreDesc first_segment).take first_target ++
           (pySortByScoreDesc second_segment).take second_target)

/-! ## Retrying Fetcher (`youtube_service.py`)

Module constants (lines 22-28). -/

def MAX_VIDEO_DURATION : ℤ := 7200

def MAX_RETRIES : ℕ := 5

def INITIAL_RETRY_DELAY : ℚ := 5

def MAX_RETRY_DELAY : ℚ := 60

/-- One call to the wrapped function either returns a value or raises an
exception carrying a message (`str(e)`). -/
inductive CallOutcome (α : Type) where
  | success (v : α)
  | failure (msg : List Char)
  deriving Repr

/-- Python `needle in hay` on strings: contiguous-substring test. -/
def containsSlice (needle : List Char) : List Char → Bool
  | [] => needle.isEmpty
  | c :: cs => needle.isPrefixOf (c :: cs) || containsSlice needle cs

/-- The rate-limit classification of `_execute_with_retry` (line 96):
`'429' in error_str or 'too many requests' in error_str or
'rate limit' in error_str` on the lowercased message. -/
def isRateLimitError (msg : List Char) : Bool :=
  let error_str := pyLower msg
  containsSlice "429".data error_str ||
  containsSlice "too many requests".data error_str ||
  containsSlice "rate limit".data error_str

def rateLimitExceededMsg : List Char :=
  "Rate limit exceeded after 5 attempts. Please try again later.".data

/-- What one run of the retry wrapper did: the value returned or message
raised, the number of calls made, and the sleeps performed (base delay
plus jitter, in order). -/
structure RetryTrace (α : Type) where
  result : Except (List Char) α
  attempts : ℕ
  delays : List ℚ

/-- The `for attempt in range(MAX_RETRIES)` loop of `_execute_with_retry`
(lines 86-115), processed as recursion over the remaining attempt indices.
`run n` is the outcome of the wrapped call on attempt `n`; `jitter n`
stands for `random.uniform(0, delay * 0.1)` of attempt `n`.  The `[]` case
is the source's unreachable fall-through raise
(`f"Failed after {MAX_RETRIES} attempts: {str(last_error)}"`). -/
def retryLoop {α : Type} (run : ℕ → CallOutcome α) (jitter : ℕ → ℚ)
    (last_error : List Char) : List ℕ → RetryTrace α
  | [] =>
    { result := .error ("Failed after 5 attempts: ".data ++ last_error),
      attempts := 0, delays := [] }
  | attempt :: rest =>
    match run attempt with
    | .success v => { result := .ok v, attempts := 1, delays := [] }
    | .failure e =>
      if isRateLimitError e then
        if attempt < MAX_RETRIES - 1 then
          let delay := min (INITIAL_RETRY_DELAY * 2 ^ attempt) MAX_RETRY_DELAY
          let total_delay := delay + jitter attempt
          let t := retryLoop run jitter e rest
          { result := t.result, attempts := t.attempts + 1,
            delays := total_delay :: t.delays }
        else
          { result := .error rateLimitExceededMsg, attempts := 1, delays := [] }
      else
        -- "Non-rate-limit error, don't retry" — re-raise immediately
        { result := .error e, attempts := 1, delays := [] }

/-- `YouTubeService._execute_with_retry(func)` (`last_error` starts as
`None`). -/
def execute_with_retry {α : Type} (run : ℕ → CallOutcome α)
    (jitter : ℕ → ℚ) : RetryTrace α :=
  retryLoop run jitter "None".data (List.range MAX_RETRIES)

/-! ## Metadata fetch (`get_video_metadata`, lines 150-198) -/

/-- The fields `_fetch_metadata` reads from the yt-dlp info dict
(`info.get('duration', 0)` etc.). -/
structure YtInfo where
  duration : ℤ
  title : List Char
  thumbnail : List Char
  uploader : List Char

structure VideoMetadata where
  video_id : List Char
  title : List Char
  duration_seconds : ℤ
  thumbnail_url : List Char
  channel : List Char
  deriving Repr

/-- The message of the duration-limit `YouTubeServiceError`
(`f"... {MAX_VIDEO_DURATION // 3600} hours"`, and `7200 // 3600 = 2`). -/
def durationExceededMsg : List Char :=
  "Video duration exceeds maximum allowed length of 2 hours".data

/-- The body of `_fetch_metadata` after the network extraction, applied to
the extracted info dict: the duration-limit check and the metadata dict. -/
def fetchMetadataOnce (video_id : List Char) (info : YtInfo) :
    CallOutcome VideoMetadata :=
  if info.duration > MAX_VIDEO_DURATION then
    .failure durationExceededMsg
  else
    .success { video_id := video_id, title := info.title,
               duration_seconds := info.duration,
               thumbnail_url := info.thumbnail, channel := info.uploader }

/-- `get_video_metadata(video_id)` given the info dict the upstream
extraction yields: `_execute_with_retry(_fetch_metadata)`.  The outer
`except YouTubeServiceError: raise` re-raises the typed error unchanged,
so the trace's error is the surfaced `YouTubeServiceError` message. -/
def get_video_metadata (video_id : List Char) (info : YtInfo)
    (jitter : ℕ → ℚ) : RetryTrace VideoMetadata :=
  execute_with_retry (fun _ => fetchMetadataOnce video_id info) jitter

/-! ## Status constants (`core/constants.py`) -/

inductive VideoStatus where
  | PENDING | PROCESSING | READY | FAILED
  deriving DecidableEq, Repr

inductive JobStatus where
  | PENDING | FETCHING_TRANSCRIPT | GENERATING_NOTES | COMPLETED | FAILED
  deriving DecidableEq, Repr

/-! ## Parallel Generation Coordinator
(`_generate_ai_content_parallel`, `workers/video_processor.py` 429-500)

Two tasks are submitted to a 2-worker pool and joined with
`as_completed`; each generation call either returns its result dict or
raises with a message.  `chaptersFirst` is the nondeterministic completion
order of the two futures.  The first failing future's exception is
re-raised as `AINotesServiceError(f"Failed to generate {task_name}: ...")`
before the other result is read. -/

structure ChaptersGen where
  chapters : List String
  tokens_used : ℕ
  deriving DecidableEq, Repr

structure StructuredGen where
  summary : String
  bullets : List String
  key_timestamps : List String
  flashcards : List String
  action_items : List String
  topics : List String
  difficulty_level : String
  model_used : String
  tokens_used : ℕ
  deriving DecidableEq, Repr

def generate_ai_content_parallel
    (chaptersRes : Except String ChaptersGen)
    (structuredRes : Except String StructuredGen)
    (chaptersFirst : Bool) : Except String (ChaptersGen × StructuredGen) :=
  if chaptersFirst then
    match chaptersRes with
    | .error e => .error ("Failed to generate " ++ "chapters" ++ ": " ++ e)
    | .ok c =>
      match structuredRes with
      | .error e => .error ("Failed to generate " ++ "structured" ++ ": " ++ e)
      | .ok s => .ok (c, s)
  else
    match structuredRes with
    | .error e => .error ("Failed to generate " ++ "structured" ++ ": " ++ e)
    | .ok s =>
      match chaptersRes with
      | .error e => .error ("Failed to generate " ++ "chapters" ++ ": " ++ e)
      | .ok c => .ok (c, s)

/-! ## Persisted rows (semantic embedding of the ORM models used by the
worker and the video routes) -/

structure VideoRow where
  id : ℕ
  user_id : ℕ
  youtube_video_id : String
  original_url : String
  title : Option String
  thumbnail_url : Option String
  duration_seconds : Option ℤ
  status : VideoStatus
  failure_reason : Option String
  processed_at : Option ℕ
  deriving DecidableEq, Repr

structure TranscriptRow where
  video_id : ℕ
  language_code : String
  provider : String
  raw_text : String
  segments : List Segment
  deriving DecidableEq, Repr

structure NotesRow where
  video_id : ℕ
  summary : String
  bullets : List String
  key_timestamps : List String
  flashcards : List String
  action_items : List String
  topics : List String
  difficulty_level : String
  markdown_notes : String
  chapters : List String
  suggested_prompts : Option (List String)
  notes_model : String
  notes_tokens : ℕ
  chapters_tokens : ℕ
  was_truncated : String
  raw_llm_output : Option String
  deriving DecidableEq, Repr

structure JobRow where
  id : ℕ
  video_id : ℕ
  status : JobStatus
  error_message : Option String
  deriving DecidableEq, Repr

structure UserRow where
  id : ℕ
  videos_analyzed : ℕ
  video_limit : ℕ
  deriving DecidableEq, Repr

structure Db where
  videos : List VideoRow
  transcripts : List TranscriptRow
  notes : List NotesRow
  jobs : List JobRow
  users : List UserRow
  next_video_id : ℕ
  deriving Repr

/-! ## Worker pipeline skeleton (`_process_video_sync`, lines 91-426)

The run is driven by the outcomes of its two external collaborators: the
source fetch (`process_video_url`, raising `YouTubeServiceError` on
failure) and the two generation calls joined by the coordinator (whose
failure raises `AINotesServiceError`, caught as `"AI error: ..."`).
`jobTrace` is the sequence of statuses the run's own Job row passes
through; `savedNotes` is the Notes row inserted at step 6, which the
source only reaches after the coordinator returned both results. -/

structure PipelineResult where
  jobTrace : List JobStatus
  jobError : Option String
  videoStatus : VideoStatus
  savedNotes : Option NotesRow
  success : Bool
  deriving Repr

def process_video_sync (video_id : ℕ)
    (fetchRes : Except String Unit)
    (chaptersRes : Except String ChaptersGen)
    (structuredRes : Except String StructuredGen)
    (chaptersFirst : Bool)
    (suggested_prompts : List String) : PipelineResult :=
  match fetchRes with
  | .error e =>
    -- `except YouTubeServiceError`: job FAILED, video FAILED
    { jobTrace := [.PENDING, .FETCHING_TRANSCRIPT, .FAILED],
      jobError := some e, videoStatus := .FAILED,
      savedNotes := none, success := false }
  | .ok _ =>
    match generate_ai_content_parallel chaptersRes structuredRes chaptersFirst with
    | .error e =>
      -- `except AINotesServiceError`: f"AI error: {str(e)}"
      { jobTrace := [.PENDING, .FETCHING_TRANSCRIPT, .GENERATING_NOTES, .FAILED],
        jobError := some ("AI error: " ++ e), videoStatus := .FAILED,
        savedNotes := none, success := false }
    | .ok (chaptersOk, structuredOk) =>
      { jobTrace := [.PENDING, .FETCHING_TRANSCRIPT, .GENERATING_NOTES,
                     .COMPLETED],
        jobError := none, videoStatus := .READY,
        savedNotes := some
          { video_id := video_id,
            summary := structuredOk.summary,
            bullets := structuredOk.bullets,
            key_timestamps := structuredOk.key_timestamps,
            flashcards := structuredOk.flashcards,
            action_items := structuredOk.action_items,
            topics := structuredOk.topics,
            difficulty_level := structuredOk.difficulty_level,
            markdown_notes := "",
            chapters := chaptersOk.chapters,
            suggested_prompts :=
              if suggested_prompts = [] then none else some suggested_prompts,
            notes_model := structuredOk.model_used,
            notes_tokens := structuredOk.tokens_used,
            chapters_tokens := chaptersOk.tokens_used,
            was_truncated := "N",
            raw_llm_output := some "chapters+structured" },
        success := true }

/-- The Job rows after one worker run: the run inserts its own fresh row
(`job = Job(...); db.add(job)`) and mutates only that row, ending at the
final status of its trace; pre-existing rows are untouched.  Fresh ids
model the database's id generation. -/
def freshJobId (jobs : List JobRow) : ℕ :=
  (jobs.map (·.id)).foldr max 0 + 1

def workerRunJobs (jobs : List JobRow) (video_id : ℕ)
    (res : PipelineResult) : List JobRow :=
  jobs ++ [{ id := freshJobId jobs, video_id := video_id,
             status := (res.jobTrace.getLast?).getD .PENDING,
             error_message := res.jobError }]

/-! ## Cache/Dedup layer (`video_processing_service.py`) -/

def get_transcript_by_video_id (db : Db) (video_id : ℕ) :
    Option TranscriptRow :=
  db.transcripts.find? fun t => decide (t.video_id = video_id)

def get_notes_by_video_id (db : Db) (video_id : ℕ) : Option NotesRow :=
  db.notes.find? fun n => decide (n.video_id = video_id)

/-- `find_ready_video_globally`: first a READY video joined with Notes
having nonempty `suggested_prompts`, else any READY video (`limit 1` on
each query: first row in table order). -/
def find_ready_video_globally (db : Db) (youtube_video_id : String) :
    Option VideoRow :=
  let complete := db.videos.find? fun v =>
    decide (v.youtube_video_id = youtube_video_id) &&
    decide (v.status = VideoStatus.READY) &&
    (match get_notes_by_video_id db v.id with
     | some n =>
       decide (n.suggested_prompts ≠ none) &&
       decide (n.suggested_prompts ≠ some [])
     | none => false)
  match complete with
  | some v => some v
  | none =>
    db.videos.find? fun v =>
      decide (v.youtube_video_id = youtube_video_id) &&
      decide (v.status = VideoStatus.READY)

/-- `clone_video_for_user(source_video, user_id, original_url)`
(lines 622-695): a new READY video for `user_id`, the source's Transcript
and Notes copied, token counts zeroed and `raw_llm_output` not copied.
`now` stands for `datetime.utcnow()`. -/
def clone_video_for_user (db : Db) (source_video : VideoRow)
    (user_id : ℕ) (original_url : String) (now : ℕ) : Db × VideoRow :=
  let new_video : VideoRow :=
    { id := db.next_video_id, user_id := user_id,
      youtube_video_id := source_video.youtube_video_id,
      original_url := original_url, title := source_video.title,
      thumbnail_url := source_video.thumbnail_url,
      duration_seconds := source_video.duration_seconds,
      status := VideoStatus.READY, failure_reason := none,
      processed_at := some now }
  let newTranscripts :=
    match get_transcript_by_video_id db source_video.id with
    | some t =>
      [{ video_id := new_video.id, language_code := t.language_code,
         provider := t.provider, raw_text := t.raw_text,
         segments := t.segments : TranscriptRow }]
    | none => []
  let newNotes :=
    match get_notes_by_video_id db source_video.id with
    | some n =>
      [{ video_id := new_video.id, summary := n.summary,
         bullets := n.bullets, key_timestamps := n.key_timestamps,
         flashcards := n.flashcards, action_items := n.action_items,
         topics := n.topics, difficulty_level := n.difficulty_level,
         markdown_notes := n.markdown_notes, chapters := n.chapters,
         suggested_prompts := n.suggested_prompts,
         notes_model := n.notes_model,
         notes_tokens := 0, chapters_tokens := 0,
         was_truncated := n.was_truncated,
         raw_llm_output := none : NotesRow }]
    | none => []
  ({ db with
      videos := db.videos ++ [new_video],
      transcripts := db.transcripts ++ newTranscripts,
      notes := db.notes ++ newNotes,
      next_video_id := db.next_video_id + 1 },
   new_video)

/-! ## Submission route (`create_video`, `api/routes/videos.py` 38-128)

`extract_video_id` is pure URL parsing; its outcome is the `extracted`
parameter.  An `.error` response is the detail string of the raised
`HTTPException`.  `enqueued` records whether `enqueue_video_processing`
ran — the source-fetch and generation collaborators are invoked only by
the background worker of an enqueued job, never by the route itself. -/

structure CreateVideoOutcome where
  db : Db
  response : Except String (VideoRow × String × String)
  enqueued : Bool
  deriving Repr

def create_video (db : Db) (user_id : ℕ) (url : String)
    (extracted : Option String) (now : ℕ) : CreateVideoOutcome :=
  match db.users.find? fun u => decide (u.id = user_id) with
  | none => { db := db, response := .error "Not authenticated", enqueued := false }
  | some current_user =>
    if current_user.videos_analyzed ≥ current_user.video_limit then
      { db := db, response := .error "LIMIT_REACHED", enqueued := false }
    else
      match extracted with
      | none =>
        { db := db, response := .error "Invalid YouTube URL", enqueued := false }
      | some youtube_video_id =>
        -- check_duplicate_video: this user already has this video
        match db.videos.find? (fun v =>
            decide (v.user_id = user_id) &&
            decide (v.youtube_video_id = youtube_video_id)) with
        | some existing_video =>
          { db := db,
            response := .ok (existing_video, "",
              "Video already exists in your library"),
            enqueued := false }
        | none =>
          match find_ready_video_globally db youtube_video_id with
          | some cached_video =>
            let r := clone_video_for_user db cached_video user_id url now
            { db := r.1,
              response := .ok (r.2, "", "Video instantly loaded from cache!"),
              enqueued := false }
          | none =>
            let video : VideoRow :=
              { id := db.next_video_id, user_id := user_id,
                youtube_video_id := youtube_video_id, original_url := url,
                title := none, thumbnail_url := none,
                duration_seconds := none, status := VideoStatus.PENDING,
                failure_reason := none, processed_at := none }
            { db := { db with
                videos := db.videos ++ [video],
                next_video_id := db.next_video_id + 1 },
              response := .ok (video, toString video.id,
                "Video submitted for processing"),
              enqueued := true }

/-! ## Resubmission route (`reprocess_video`, `api/routes/videos.py`
470-525): requires the caller's own FAILED video, resets the Video row to
PENDING and re-enqueues; it touches no Job row (the later worker run
creates a brand-new one via `workerRunJobs`). -/

def reprocess_video (db : Db) (video_id user_id : ℕ) :
    Except String (Db × ℕ) :=
  match db.videos.find? fun v => decide (v.id = video_id) with
  | none => .error "Video not found"
  | some video =>
    if video.user_id ≠ user_id then
      .error "Not authorized to reprocess this video"
    else if video.status ≠ VideoStatus.FAILED then
      .error "Can only reprocess failed videos"
    else
      .ok ({ db with videos := db.videos.map fun w =>
              if w.id = video_id then { w with status := VideoStatus.PENDING }
              else w },
           video_id)

/-! # Theorems -/

/-! ## Window Chunker lemmas (shared by C2 and C3) -/

theorem effDuration_ge (cd : ℤ) : 180 ≤ effDuration cd :=
  le_max_left _ _

theorem chunkStep_pos (cd ov : ℤ) : 0 < chunkStep CONFIG cd ov := by
  have h := effDuration_ge cd
  simp only [chunkStep, effOverlap, CONFIG]
  omega

theorem chunkStep_le_effDuration (cd ov : ℤ) :
    chunkStep CONFIG cd ov ≤ effDuration cd := by
  have h := effDuration_ge cd
  simp only [chunkStep, effOverlap, CONFIG]
  omega

theorem numWindows_pos (D : ℚ) (step : ℤ) (hD : 0 < D) (hs : 0 < step) :
    0 < numWindows D step := by
  have hq : (0 : ℚ) < (step : ℚ) := by exact_mod_cast hs
  have hceil : 0 < ⌈D / (step : ℚ)⌉ := Int.ceil_pos.mpr (div_pos hD hq)
  unfold numWindows
  omega

theorem numWindows_cast (D : ℚ) (step : ℤ) (hD : 0 < D) (hs : 0 < step) :
    ((numWindows D step : ℤ)) = ⌈D / (step : ℚ)⌉ := by
  have hq : (0 : ℚ) < (step : ℚ) := by exact_mod_cast hs
  have hceil : 0 < ⌈D / (step : ℚ)⌉ := Int.ceil_pos.mpr (div_pos hD hq)
  unfold numWindows
  omega

/-- Every window sits inside `[0, D]` and starts strictly before `D`. -/
theorem windowAt_bounds (D : ℚ) (dur step : ℤ) (k : ℕ)
    (hD : 0 < D) (hs : 0 < step) (hk : k < numWindows D step) :
    0 ≤ (windowAt D dur step k).1 ∧ (windowAt D dur step k).1 < D ∧
      (windowAt D dur step k).2 ≤ D := by
  have hq : (0 : ℚ) < (step : ℚ) := by exact_mod_cast hs
  have hkc : ((k : ℤ)) < ⌈D / (step : ℚ)⌉ := by
    have := numWindows_cast D step hD hs
    omega
  have hklt : ((k : ℚ)) < D / (step : ℚ) := by
    have := Int.lt_ceil.mp hkc
    exact_mod_cast this
  have h1 : (k : ℚ) * (step : ℚ) < D := (lt_div_iff₀ hq).mp hklt
  refine ⟨?_, ?_, ?_⟩
  · exact mul_nonneg (Nat.cast_nonneg k) (le_of_lt hq)
  · exact h1
  · exact min_le_right _ _

/-- The windows cover `[0, D)`: every timestamp in range lies in the
window of iteration `⌊t/step⌋`. -/
theorem window_cover (D : ℚ) (dur step : ℤ) (t : ℚ)
    (hs : 0 < step) (hsd : step ≤ dur) (h0 : 0 ≤ t) (ht : t < D) :
    ∃ k, k < numWindows D step ∧ (windowAt D dur step k).1 ≤ t ∧
      t < (windowAt D dur step k).2 := by
  have hD : 0 < D := lt_of_le_of_lt h0 ht
  have hq : (0 : ℚ) < (step : ℚ) := by exact_mod_cast hs
  have hfl : 0 ≤ ⌊t / (step : ℚ)⌋ :=
    Int.floor_nonneg.mpr (div_nonneg h0 (le_of_lt hq))
  refine ⟨(⌊t / (step : ℚ)⌋).toNat, ?_, ?_, ?_⟩
  · have hlt : ((⌊t / (step : ℚ)⌋ : ℚ)) ≤ t / (step : ℚ) := Int.floor_le _
    have : (⌊t / (step : ℚ)⌋ : ℚ) * (step : ℚ) ≤ t := by
      calc (⌊t / (step : ℚ)⌋ : ℚ) * (step : ℚ)
          ≤ (t / (step : ℚ)) * (step : ℚ) := by
            exact mul_le_mul_of_nonneg_right hlt (le_of_lt hq)
        _ = t := div_mul_cancel₀ t (ne_of_gt hq)
    have hltD : (⌊t / (step : ℚ)⌋ : ℚ) * (step : ℚ) < D := lt_of_le_of_lt this ht
    have hc : ⌊t / (step : ℚ)⌋ < ⌈D / (step : ℚ)⌉ := by
      apply Int.lt_ceil.mpr
      rw [lt_div_iff₀ hq]
      exact hltD
    have := numWindows_cast D step hD hs
    omega
  · unfold windowAt
    have hlt : ((⌊t / (step : ℚ)⌋ : ℚ)) ≤ t / (step : ℚ) := Int.floor_le _
    have hcast : (((⌊t / (step : ℚ)⌋).toNat : ℚ)) = ((⌊t / (step : ℚ)⌋ : ℚ)) := by
      exact_mod_cast Int.toNat_of_nonneg hfl
    rw [hcast]
    calc (⌊t / (step : ℚ)⌋ : ℚ) * (step : ℚ)
        ≤ (t / (step : ℚ)) * (step : ℚ) :=
          mul_le_mul_of_nonneg_right hlt (le_of_lt hq)
      _ = t := div_mul_cancel₀ t (ne_of_gt hq)
  · unfold windowAt
    have hup : t / (step : ℚ) < (⌊t / (step : ℚ)⌋ : ℚ) + 1 := Int.lt_floor_add_one _
    have hcast : (((⌊t / (step : ℚ)⌋).toNat : ℚ)) = ((⌊t / (step : ℚ)⌋ : ℚ)) := by
      exact_mod_cast Int.toNat_of_nonneg hfl
    rw [hcast]
    apply lt_min
    · have h1 : t < ((⌊t / (step : ℚ)⌋ : ℚ) + 1) * (step : ℚ) := by
        rw [← div_lt_iff₀ hq] at *
        exact hup
      have h2 : ((⌊t / (step : ℚ)⌋ : ℚ) + 1) * (step : ℚ) =
          (⌊t / (step : ℚ)⌋ : ℚ) * (step : ℚ) + (step : ℚ) := by ring
      have h3 : (step : ℚ) ≤ (dur : ℚ) := by exact_mod_cast hsd
      calc t < ((⌊t / (step : ℚ)⌋ : ℚ) + 1) * (step : ℚ) := h1
        _ = (⌊t / (step : ℚ)⌋ : ℚ) * (step : ℚ) + (step : ℚ) := h2
        _ ≤ (⌊t / (step : ℚ)⌋ : ℚ) * (step : ℚ) + (dur : ℚ) := by linarith
    · exact ht

/-- The final window of the sliding pass ends exactly at `D`. -/
theorem window_last_end (D : ℚ) (dur step : ℤ)
    (hD : 0 < D) (hs : 0 < step) (hsd : step ≤ dur) :
    (windowAt D dur step (numWindows D step - 1)).2 = D := by
  have hq : (0 : ℚ) < (step : ℚ) := by exact_mod_cast hs
  have hN : 0 < numWindows D step := numWindows_pos D step hD hs
  have hcast := numWindows_cast D step hD hs
  have hle : D / (step : ℚ) ≤ ((⌈D / (step : ℚ)⌉ : ℚ)) := Int.le_ceil _
  have hDN : D ≤ ((numWindows D step : ℚ)) * (step : ℚ) := by
    have hNq : ((numWindows D step : ℚ)) = ((⌈D / (step : ℚ)⌉ : ℚ)) := by
      exact_mod_cast hcast
    rw [hNq, ← div_le_iff₀ hq]
    exact hle
  have hsub : (((numWindows D step - 1 : ℕ) : ℚ)) =
      ((numWindows D step : ℚ)) - 1 := by
    have : (1 : ℕ) ≤ numWindows D step := hN
    push_cast [Nat.cast_sub this]
    ring
  unfold windowAt
  apply min_eq_right
  rw [hsub]
  have h3 : (step : ℚ) ≤ (dur : ℚ) := by exact_mod_cast hsd
  have : (((numWindows D step : ℚ)) - 1) * (step : ℚ) =
      ((numWindows D step : ℚ)) * (step : ℚ) - (step : ℚ) := by ring
  rw [this]
  linarith

/-! ## C1 — Candidate Deduplicator -/

theorem deduplicateAux_title_not_seen :
    ∀ (l : List Candidate) (seen : List (List Char)) (c : Candidate),
      c ∈ deduplicateAux seen l → c.title ∉ seen := by
  intro l
  induction l with
  | nil => intro seen c hc; simp [deduplicateAux] at hc
  | cons a rest ih =>
    intro seen c hc
    by_cases h : a.title ∈ seen
    · rw [deduplicateAux, if_pos h] at hc
      exact ih seen c hc
    · rw [deduplicateAux, if_neg h] at hc
      rcases List.mem_cons.mp hc with rfl | hc
      · exact h
      · intro hmem
        exact ih _ c hc (List.mem_cons_of_mem _ hmem)

theorem deduplicateAux_sublist :
    ∀ (l : List Candidate) (seen : List (List Char)),
      (deduplicateAux seen l).Sublist l := by
  intro l
  induction l with
  | nil => intro seen; simp [deduplicateAux]
  | cons a rest ih =>
    intro seen
    by_cases h : a.title ∈ seen
    · rw [deduplicateAux, if_pos h]
      exact (ih seen).cons a
    · rw [deduplicateAux, if_neg h]
      exact (ih _).cons₂ a

theorem deduplicateAux_titles_nodup :
    ∀ (l : List Candidate) (seen : List (List Char)),
      ((deduplicateAux seen l).map (·.title)).Nodup := by
  intro l
  induction l with
  | nil => intro seen; simp [deduplicateAux]
  | cons a rest ih =>
    intro seen
    by_cases h : a.title ∈ seen
    · rw [deduplicateAux, if_pos h]; exact ih seen
    · rw [deduplicateAux, if_neg h]
      refine List.nodup_cons.mpr ⟨?_, ih _⟩
      intro hmem
      rcases List.mem_map.mp hmem with ⟨c, hc, ht⟩
      exact deduplicateAux_title_not_seen rest _ c hc
        (ht ▸ List.mem_cons_self _ _)

theorem deduplicateAux_find_eq :
    ∀ (l : List Candidate) (seen : List (List Char)) (t : List Char),
      t ∉ seen →
      (deduplicateAux seen l).find? (fun c => decide (c.title = t)) =
        l.find? (fun c => decide (c.title = t)) := by
  intro l
  induction l with
  | nil => intro seen t _; simp [deduplicateAux]
  | cons a rest ih =>
    intro seen t ht
    by_cases h : a.title ∈ seen
    · rw [deduplicateAux, if_pos h]
      have hne : ¬ (a.title = t) := fun he => ht (he ▸ h)
      rw [ih seen t ht, List.find?_cons]
      simp [hne]
    · rw [deduplicateAux, if_neg h]
      by_cases he : a.title = t
      · rw [List.find?_cons, List.find?_cons]
        simp [he]
      · rw [List.find?_cons, List.find?_cons]
        have hd : decide (a.title = t) = false := decide_eq_false he
        rw [hd]
        exact ih _ t (by
          intro hmem
          rcases List.mem_cons.mp hmem with hh | hh
          · exact he hh.symm
          · exact ht hh)

/-- C1 (amended): the Candidate Deduplicator with the default key keeps, in
order, exactly the first-seen candidate of every distinct *exact* title:
output titles are pairwise distinct, the output is a subsequence of the
input, and for every title the first matching candidate is preserved.
(The source compares raw `title` values; no case or whitespace
normalization is applied.) -/
theorem deduplicate_candidates_exact_first_seen (candidates : List Candidate) :
    ((deduplicate_candidates candidates).map (·.title)).Nodup ∧
    (deduplicate_candidates candidates).Sublist candidates ∧
    ∀ t : List Char,
      (deduplicate_candidates candidates).find? (fun c => decide (c.title = t)) =
        candidates.find? (fun c => decide (c.title = t)) := by
  refine ⟨deduplicateAux_titles_nodup candidates [],
          deduplicateAux_sublist candidates [], ?_⟩
  intro t
  exact deduplicateAux_find_eq candidates [] t (by simp)

/-- C1 (counterexample): two candidates whose titles differ only in letter
case and trailing whitespace are *both* kept by `deduplicate_candidates`,
so the output does contain two candidates with the same normalized
(case/whitespace-insensitive) title, contradicting the claim. -/
theorem deduplicate_candidates_normalization_counterexample :
    ¬ (((deduplicate_candidates
          [{ title := "Intro".data, start_time := 0, score := 0 },
           { title := "intro ".data, start_time := 100, score := 0 }]).map
        (fun c => specNormalizeTitle c.title)).Nodup) := by
  decide

/-! ## C8 — Temporal Allocator, unlimited mode -/

/-- C8: with the default configuration (both per-segment caps `None`), the
Temporal Allocator returns the whole candidate list stably sorted by
`start_time` for every video of at least 300 seconds — a permutation of
the input, time-ordered, independent of `requested_topics` and of
scores. -/
theorem apply_temporal_distribution_unlimited
    (candidates : List Candidate) (video_duration : ℚ)
    (requested_topics : ℕ)
    (hne : candidates ≠ []) (hdur : 300 ≤ video_duration) :
    apply_temporal_distribution candidates video_duration requested_topics
        CONFIG = pySortByStart candidates ∧
    (apply_temporal_distribution candidates video_duration requested_topics
        CONFIG).Perm candidates ∧
    List.Pairwise (fun a b => a.start_time ≤ b.start_time)
      (apply_temporal_distribution candidates video_duration requested_topics
        CONFIG) := by
  have h300 : ¬ (video_duration < 300) := not_lt.mpr hdur
  have heq : apply_temporal_distribution candidates video_duration
      requested_topics CONFIG = pySortByStart candidates := by
    simp [apply_temporal_distribution, hne, h300, CONFIG]
  refine ⟨heq, ?_, ?_⟩
  · rw [heq]
    exact List.mergeSort_perm candidates _
  · rw [heq]
    have hs := @List.sorted_mergeSort Candidate
      (fun a b : Candidate => decide (a.start_time ≤ b.start_time))
      (fun a b c hab hbc => by
        simp only [decide_eq_true_eq] at *
        exact le_trans hab hbc)
      (fun a b => by
        simp only [Bool.or_eq_true, decide_eq_true_eq]
        exact le_total a.start_time b.start_time)
      candidates
    exact hs.imp (fun h => of_decide_eq_true h)

/-! ## C4 — Retrying Fetcher classification -/

/-- C4 (counterexample): an access-blocked failure (its message contains
none of the rate-limit markers) is raised immediately on the first
attempt — no retry and no backoff sleep — contradicting the claim that
blocked failures are retried up to the attempt ceiling with a larger base
delay. -/
theorem execute_with_retry_blocked_not_retried :
    (execute_with_retry
        (fun _ => CallOutcome.failure
          "access blocked: sign in to confirm access".data)
        (fun _ => 0) : RetryTrace Unit).result =
      .error "access blocked: sign in to confirm access".data ∧
    (execute_with_retry
        (fun _ => CallOutcome.failure
          "access blocked: sign in to confirm access".data)
        (fun _ => 0) : RetryTrace Unit).attempts = 1 ∧
    (execute_with_retry
        (fun _ => CallOutcome.failure
          "access blocked: sign in to confirm access".data)
        (fun _ => 0) : RetryTrace Unit).delays = [] :=
  ⟨rfl, rfl, rfl⟩

/-- C4 (amended): the retry wrapper classifies only by the rate-limit
markers: a failure whose message is not rate-limit-classified — including
any access-blocked failure — is raised immediately after one call with no
sleep; a persistently rate-limited call is attempted 5 times with base
delays 5, 10, 20, 40 seconds (`min(5·2^k, 60)` plus jitter) and then
surfaces the typed rate-limit-exceeded error. -/
theorem execute_with_retry_rate_limited_only {α : Type}
    (run₁ : ℕ → CallOutcome α) (jitter₁ : ℕ → ℚ) (e : List Char)
    (run₂ : ℕ → CallOutcome α) (jitter₂ : ℕ → ℚ) (f : ℕ → List Char)
    (h1 : run₁ 0 = .failure e) (h2 : isRateLimitError e = false)
    (h3 : ∀ n, run₂ n = .failure (f n))
    (h4 : ∀ n, isRateLimitError (f n) = true) :
    execute_with_retry run₁ jitter₁ =
      { result := .error e, attempts := 1, delays := [] } ∧
    (execute_with_retry run₂ jitter₂).attempts = 5 ∧
    (execute_with_retry run₂ jitter₂).result = .error rateLimitExceededMsg ∧
    (execute_with_retry run₂ jitter₂).delays =
      [5 + jitter₂ 0, 10 + jitter₂ 1, 20 + jitter₂ 2, 40 + jitter₂ 3] := by
  have hrange : List.range MAX_RETRIES = [0, 1, 2, 3, 4] := rfl
  constructor
  · unfold execute_with_retry
    rw [hrange]
    unfold retryLoop
    rw [h1]
    simp [h2]
  · have hd0 : min (INITIAL_RETRY_DELAY * 2 ^ 0) MAX_RETRY_DELAY = 5 := by
      unfold INITIAL_RETRY_DELAY MAX_RETRY_DELAY; norm_num
    have hd1 : min (INITIAL_RETRY_DELAY * 2 ^ 1) MAX_RETRY_DELAY = 10 := by
      unfold INITIAL_RETRY_DELAY MAX_RETRY_DELAY; norm_num
    have hd2 : min (INITIAL_RETRY_DELAY * 2 ^ 2) MAX_RETRY_DELAY = 20 := by
      unfold INITIAL_RETRY_DELAY MAX_RETRY_DELAY; norm_num
    have hd3 : min (INITIAL_RETRY_DELAY * 2 ^ 3) MAX_RETRY_DELAY = 40 := by
      unfold INITIAL_RETRY_DELAY MAX_RETRY_DELAY; norm_num
    have hloop : execute_with_retry run₂ jitter₂ =
        { result := .error rateLimitExceededMsg, attempts := 5,
          delays := [5 + jitter₂ 0, 10 + jitter₂ 1, 20 + jitter₂ 2,
                     40 + jitter₂ 3] } := by
      unfold execute_with_retry
      rw [hrange]
      simp only [retryLoop, h3 0, h3 1, h3 2, h3 3, h3 4,
        h4 0, h4 1, h4 2, h4 3, h4 4, MAX_RETRIES, hd0, hd1, hd2, hd3]
      norm_num
    rw [hloop]
    exact ⟨rfl, rfl, rfl⟩

/-- C4 witness: a blocked failure surfaces after one call; a persistent
`429` failure is retried with delays 5, 10, 20, 40. -/
theorem execute_with_retry_rate_limited_only_witness :
    isRateLimitError "blocked by upstream".data = false ∧
    isRateLimitError "429".data = true ∧
    (execute_with_retry
        (fun _ => (CallOutcome.failure "blocked by upstream".data :
          CallOutcome Unit)) (fun _ => 0) =
      { result := .error "blocked by upstream".data, attempts := 1,
        delays := [] } ∧
    (execute_with_retry
        (fun _ => (CallOutcome.failure "429".data : CallOutcome Unit))
        (fun _ => 0)).attempts = 5 ∧
    (execute_with_retry
        (fun _ => (CallOutcome.failure "429".data : CallOutcome Unit))
        (fun _ => 0)).result = .error rateLimitExceededMsg ∧
    (execute_with_retry
        (fun _ => (CallOutcome.failure "429".data : CallOutcome Unit))
        (fun _ => 0)).delays = [5 + 0, 10 + 0, 20 + 0, 40 + 0]) :=
  ⟨by decide, by decide,
   execute_with_retry_rate_limited_only _ _ _ _ _ _ rfl (by decide)
     (fun _ => rfl) (fun _ => by decide)⟩

/-- C8 witness: a two-candidate list on a 600-second video. -/
theorem apply_temporal_distribution_unlimited_witness :
    ([{ title := "b".data, start_time := 10, score := 0 },
      { title := "a".data, start_time := 5, score := 0 }] :
        List Candidate) ≠ [] ∧
    ((300 : ℚ) ≤ 600) ∧
    apply_temporal_distribution
      [{ title := "b".data, start_time := 10, score := 0 },
       { title := "a".data, start_time := 5, score := 0 }] 600 1 CONFIG =
      pySortByStart
        [{ title := "b".data, start_time := 10, score := 0 },
         { title := "a".data, start_time := 5, score := 0 }] :=
  ⟨by decide, by decide,
   (apply_temporal_distribution_unlimited _ _ _ (by decide) (by decide)).1⟩

/-! ## C10 — hard duration cap at the metadata fetch boundary -/

/-- C10: a source item whose reported duration exceeds
`MAX_VIDEO_DURATION = 7200` seconds makes `get_video_metadata` surface the
typed duration-limit error ("... maximum allowed length of 2 hours")
after a single attempt — the error is not rate-limit-classified, so it is
raised immediately, and no metadata is returned. -/
theorem get_video_metadata_duration_cap (video_id : List Char)
    (info : YtInfo) (jitter : ℕ → ℚ)
    (h : info.duration > MAX_VIDEO_DURATION) :
    (get_video_metadata video_id info jitter).result =
      .error durationExceededMsg ∧
    (get_video_metadata video_id info jitter).attempts = 1 := by
  have honce : fetchMetadataOnce video_id info = .failure durationExceededMsg := by
    unfold fetchMetadataOnce
    rw [if_pos h]
  have hrl : isRateLimitError durationExceededMsg = false := by decide
  have hrange : List.range MAX_RETRIES = [0, 1, 2, 3, 4] := rfl
  unfold get_video_metadata execute_with_retry
  rw [hrange]
  unfold retryLoop
  rw [honce]
  simp [hrl]

theorem mem_keptWindows (segments : List Segment) (D : ℚ) (dur step : ℤ)
    (w : ℚ × ℚ) :
    w ∈ keptWindows segments D dur step ↔
      (∃ k, k < numWindows D step ∧ windowAt D dur step k = w) ∧
        windowSegs segments w.1 w.2 ≠ [] := by
  simp [keptWindows, List.mem_filter, List.mem_map, List.mem_range]

theorem chunk_mem_slidingChunks (segments : List Segment) (D : ℚ)
    (dur step : ℤ) (c : Chunk)
    (hc : c ∈ slidingChunks segments D dur step) :
    ∃ w ∈ keptWindows segments D dur step,
      c.start_time = w.1 ∧ c.end_time = w.2 ∧
      c.segments = windowSegs segments w.1 w.2 := by
  simp only [slidingChunks, List.mem_map, List.mem_range] at hc
  obtain ⟨i, hi, rfl⟩ := hc
  refine ⟨(keptWindows segments D dur step).getD i (0, 0), ?_, rfl, rfl, rfl⟩
  rw [List.getD_eq_getElem _ _ hi]
  exact List.getElem_mem hi

theorem window_chunk_exists (segments : List Segment) (D : ℚ)
    (dur step : ℤ) (w : ℚ × ℚ)
    (hw : w ∈ keptWindows segments D dur step) :
    ∃ c ∈ slidingChunks segments D dur step,
      c.start_time = w.1 ∧ c.end_time = w.2 ∧
      c.segments = windowSegs segments w.1 w.2 := by
  obtain ⟨i, hi, hieq⟩ := List.mem_iff_getElem.mp hw
  refine ⟨{ chunk_index := i,
            start_time := ((keptWindows segments D dur step).getD i (0, 0)).1,
            end_time := ((keptWindows segments D dur step).getD i (0, 0)).2,
            segments := windowSegs segments
              ((keptWindows segments D dur step).getD i (0, 0)).1
              ((keptWindows segments D dur step).getD i (0, 0)).2 }, ?_, ?_⟩
  · simp only [slidingChunks, List.mem_map, List.mem_range]
    exact ⟨i, hi, rfl⟩
  · rw [List.getD_eq_getElem _ _ hi, hieq]
    exact ⟨rfl, rfl, rfl⟩

theorem keptWindows_eq_all (segments : List Segment) (D : ℚ) (dur step : ℤ)
    (hwin : allWindowsHaveSegs segments D dur step = true) :
    keptWindows segments D dur step =
      (List.range (numWindows D step)).map (windowAt D dur step) := by
  apply List.filter_eq_self.mpr
  intro w hw
  obtain ⟨k, hk, rfl⟩ := by
    simpa [List.mem_map, List.mem_range] using hw
  have := List.all_eq_true.mp hwin k (List.mem_range.mpr hk)
  simpa using this

theorem range_getLast? (n : ℕ) (hn : 0 < n) :
    (List.range n).getLast? = some (n - 1) := by
  cases n with
  | zero => omega
  | succ m => rw [List.range_succ, List.getLast?_concat]; simp

theorem slidingChunks_getLast_end (segments : List Segment) (D : ℚ)
    (dur step : ℤ) (hD : 0 < D) (hs : 0 < step) (hsd : step ≤ dur)
    (hall : keptWindows segments D dur step =
      (List.range (numWindows D step)).map (windowAt D dur step)) :
    ∃ c, (slidingChunks segments D dur step).getLast? = some c ∧
      c.end_time = D := by
  have hlen : (keptWindows segments D dur step).length = numWindows D step := by
    rw [hall, List.length_map, List.length_range]
  have hN : 0 < numWindows D step := numWindows_pos D step hD hs
  have hlenpos : 0 < (keptWindows segments D dur step).length := by omega
  refine ⟨{ chunk_index := (keptWindows segments D dur step).length - 1,
            start_time := ((keptWindows segments D dur step).getD
              ((keptWindows segments D dur step).length - 1) (0, 0)).1,
            end_time := ((keptWindows segments D dur step).getD
              ((keptWindows segments D dur step).length - 1) (0, 0)).2,
            segments := windowSegs segments
              ((keptWindows segments D dur step).getD
                ((keptWindows segments D dur step).length - 1) (0, 0)).1
              ((keptWindows segments D dur step).getD
                ((keptWindows segments D dur step).length - 1) (0, 0)).2 },
        ?_, ?_⟩
  · unfold slidingChunks
    rw [List.getLast?_map, range_getLast? _ hlenpos]
    rfl
  · show ((keptWindows segments D dur step).getD
      ((keptWindows segments D dur step).length - 1) (0, 0)).2 = D
    have hidx : (keptWindows segments D dur step).length - 1 <
        (keptWindows segments D dur step).length := by omega
    rw [List.getD_eq_getElem _ _ hidx]
    have : (keptWindows segments D dur step).get
        ⟨(keptWindows segments D dur step).length - 1, hidx⟩ =
        windowAt D dur step (numWindows D step - 1) := by
      rw [List.get_eq_getElem]
      have hidx2 : (keptWindows segments D dur step).length - 1 <
          ((List.range (numWindows D step)).map (windowAt D dur step)).length := by
        simp [List.length_map, List.length_range]; omega
      rw [List.getElem_of_eq hall hidx, List.getElem_map, List.getElem_range]
      congr 1
      omega
    rw [List.get_eq_getElem] at this
    rw [this]
    exact window_last_end D dur step hD hs hsd

/-- When the video is longer than a window and the last sentence starts
before the final emitted chunk's end, no tail chunk is appended. -/
theorem chunk_transcript_eq_sliding (segments : List Segment) (D : ℚ)
    (cd ov : ℤ) (hne : segments ≠ [])
    (hlong : ¬ (D ≤ ((effDuration cd : ℤ) : ℚ)))
    (hnotail : (segments.getLast hne).start <
      lastChunkEnd (slidingChunks segments D (effDuration cd)
        (chunkStep CONFIG cd ov))) :
    chunk_transcript segments D cd ov CONFIG =
      slidingChunks segments D (effDuration cd) (chunkStep CONFIG cd ov) := by
  unfold chunk_transcript
  rw [if_neg hne, if_neg hlong, List.getLast?_eq_getLast segments hne]
  simp only []
  rw [if_neg (not_le.mpr hnotail)]

/-- When the last sentence starts at or past the final emitted chunk's end
and the tail filter is nonempty, the tail chunk is appended. -/
theorem chunk_transcript_eq_sliding_append_tail (segments : List Segment)
    (D : ℚ) (cd ov : ℤ) (hne : segments ≠ [])
    (hlong : ¬ (D ≤ ((effDuration cd : ℤ) : ℚ)))
    (htail : (segments.getLast hne).start ≥
      lastChunkEnd (slidingChunks segments D (effDuration cd)
        (chunkStep CONFIG cd ov)))
    (hts : tailSegments segments
      (lastChunkEnd (slidingChunks segments D (effDuration cd)
        (chunkStep CONFIG cd ov))) ov ≠ []) :
    chunk_transcript segments D cd ov CONFIG =
      slidingChunks segments D (effDuration cd) (chunkStep CONFIG cd ov) ++
        [{ chunk_index := (slidingChunks segments D (effDuration cd)
              (chunkStep CONFIG cd ov)).length,
           start_time := lastChunkEnd (slidingChunks segments D
              (effDuration cd) (chunkStep CONFIG cd ov)) - (ov : ℚ),
           end_time := D,
           segments := tailSegments segments
              (lastChunkEnd (slidingChunks segments D (effDuration cd)
                (chunkStep CONFIG cd ov))) ov }] := by
  unfold chunk_transcript
  rw [if_neg hne, if_neg hlong, List.getLast?_eq_getLast segments hne]
  simp only []
  rw [if_pos htail, if_neg hts]

/-! ## C2 — no-gap invariant of the Window Chunker -/

/-- C2 (amended): when additionally every sliding window holds at least
one sentence and every sentence starts inside `[0, D)`, the chunk
intervals `[start, end)` cover exactly `[0, D)` — the timeline up to (but
excluding) the point `D` itself, which no half-open interval can
contain. -/
theorem chunk_transcript_no_gap (segments : List Segment) (D : ℚ)
    (cd ov : ℤ) (hne : segments ≠ []) (hD : 0 < D)
    (hwin : allWindowsHaveSegs segments D (effDuration cd)
      (chunkStep CONFIG cd ov) = true)
    (hlast : ∀ s ∈ segments, s.start < D) :
    ⋃ c ∈ chunk_transcript segments D cd ov CONFIG,
      Set.Ico c.start_time c.end_time = Set.Ico (0 : ℚ) D := by
  by_cases hshort : D ≤ ((effDuration cd : ℤ) : ℚ)
  · have hform : chunk_transcript segments D cd ov CONFIG =
        [{ chunk_index := 0, start_time := 0, end_time := D,
           segments := segments }] := by
      unfold chunk_transcript
      rw [if_neg hne, if_pos hshort]
    rw [hform]
    ext t
    simp [Set.mem_Ico]
  · have hs := chunkStep_pos cd ov
    have hsd := chunkStep_le_effDuration cd ov
    have hall := keptWindows_eq_all segments D _ _ hwin
    obtain ⟨clast, hclast, hcend⟩ := slidingChunks_getLast_end segments D
      (effDuration cd) (chunkStep CONFIG cd ov) hD hs hsd hall
    have hlce : lastChunkEnd (slidingChunks segments D (effDuration cd)
        (chunkStep CONFIG cd ov)) = D := by
      unfold lastChunkEnd
      rw [hclast]
      exact hcend
    have hform := chunk_transcript_eq_sliding segments D cd ov hne hshort
      (by rw [hlce]; exact hlast _ (List.getLast_mem hne))
    rw [hform]
    ext t
    simp only [Set.mem_iUnion, Set.mem_Ico, exists_prop]
    constructor
    · rintro ⟨c, hc, h1, h2⟩
      obtain ⟨w, hw, hws, hwe, -⟩ :=
        chunk_mem_slidingChunks segments D _ _ c hc
      obtain ⟨⟨k, hk, hkw⟩, -⟩ := (mem_keptWindows segments D _ _ w).mp hw
      obtain ⟨hb0, hb1, hb2⟩ :=
        windowAt_bounds D (effDuration cd) (chunkStep CONFIG cd ov) k hD hs hk
      subst hkw
      rw [hws] at h1
      rw [hwe] at h2
      exact ⟨le_trans hb0 h1, lt_of_lt_of_le h2 hb2⟩
    · rintro ⟨h0, hDt⟩
      obtain ⟨k, hk, hw1, hw2⟩ := window_cover D (effDuration cd)
        (chunkStep CONFIG cd ov) t hs hsd h0 hDt
      have hwmem : windowAt D (effDuration cd) (chunkStep CONFIG cd ov) k ∈
          keptWindows segments D (effDuration cd) (chunkStep CONFIG cd ov) := by
        rw [hall]
        exact List.mem_map.mpr ⟨k, List.mem_range.mpr hk, rfl⟩
      obtain ⟨c, hc, hcs, hce, -⟩ := window_chunk_exists segments D
        (effDuration cd) (chunkStep CONFIG cd ov) _ hwmem
      refine ⟨c, hc, ?_, ?_⟩
      · rw [hcs]; exact hw1
      · rw [hce]; exact hw2

/-- One sentence at `t = 0` on a 510-second video: the window `[255, 510)`
holds no sentence, so its chunk is skipped. -/
def gapSegs : List Segment := [{ text := "a".data, start := 0, duration := 1 }]

theorem gap_hnum : numWindows 510 (chunkStep CONFIG 300 45) = 2 := by
  rw [show chunkStep CONFIG 300 45 = 255 from by decide]
  unfold numWindows
  rw [show ((255 : ℤ) : ℚ) = 255 from by norm_num]
  rw [show (510 : ℚ) / 255 = ((2 : ℤ) : ℚ) from by norm_num, Int.ceil_intCast]
  rfl

theorem gap_hkept : keptWindows gapSegs 510 (effDuration 300)
    (chunkStep CONFIG 300 45) = [((0 : ℚ), (300 : ℚ))] := by
  unfold keptWindows
  rw [gap_hnum, show List.range 2 = [0, 1] from rfl]
  rw [show effDuration 300 = 300 from by decide,
      show chunkStep CONFIG 300 45 = 255 from by decide]
  rw [List.map_cons, List.map_cons, List.map_nil]
  rw [show windowAt 510 300 255 0 = ((0 : ℚ), (300 : ℚ)) from by
        unfold windowAt; push_cast; norm_num,
      show windowAt 510 300 255 1 = ((255 : ℚ), (510 : ℚ)) from by
        unfold windowAt; push_cast; norm_num]
  decide

theorem gap_hsliding : slidingChunks gapSegs 510 (effDuration 300)
    (chunkStep CONFIG 300 45) =
    [{ chunk_index := 0, start_time := 0, end_time := 300,
       segments := gapSegs }] := by
  unfold slidingChunks
  rw [gap_hkept]
  decide

theorem gap_eval : chunk_transcript gapSegs 510 300 45 CONFIG =
    [{ chunk_index := 0, start_time := 0, end_time := 300,
       segments := gapSegs }] := by
  have h := chunk_transcript_eq_sliding gapSegs 510 300 45 (by decide)
    (by rw [show effDuration 300 = 300 from by decide]; push_cast; norm_num)
    (by rw [gap_hsliding]; decide)
  rw [h, gap_hsliding]

/-- C2 (counterexample): for the single sentence at `t = 0` on a
510-second video, `chunk_transcript` emits only the chunk `[0, 300)`
(windows without sentences are dropped and no tail chunk fires), so the
timestamp 400 is in no chunk and the union is not `[0, 510]`. -/
theorem chunk_transcript_no_gap_counterexample :
    ¬ (⋃ c ∈ chunk_transcript gapSegs 510 300 45 CONFIG,
        Set.Ico c.start_time c.end_time = Set.Ico (0 : ℚ) 510) := by
  intro h
  have h400 : (400 : ℚ) ∈ Set.Ico (0 : ℚ) 510 := by norm_num
  rw [← h, gap_eval] at h400
  simp [Set.mem_iUnion, Set.mem_Ico] at h400
  norm_num at h400

/-- Three sentences at 0, 300 and 600 seconds of a 700-second video: every
window of the sliding pass is inhabited. -/
def covSegs : List Segment :=
  [{ text := "a".data, start := 0, duration := 1 },
   { text := "b".data, start := 300, duration := 1 },
   { text := "c".data, start := 600, duration := 1 }]

theorem cov_hnum : numWindows 700 (chunkStep CONFIG 300 45) = 3 := by
  rw [show chunkStep CONFIG 300 45 = 255 from by decide]
  unfold numWindows
  rw [show ((255 : ℤ) : ℚ) = 255 from by norm_num]
  rw [show ⌈(700 : ℚ) / 255⌉ = 3 from by rw [Int.ceil_eq_iff]; norm_num]
  rfl

theorem cov_hwin : allWindowsHaveSegs covSegs 700 (effDuration 300)
    (chunkStep CONFIG 300 45) = true := by
  unfold allWindowsHaveSegs
  rw [cov_hnum, show List.range 3 = [0, 1, 2] from rfl]
  rw [show effDuration 300 = 300 from by decide,
      show chunkStep CONFIG 300 45 = 255 from by decide]
  simp only [List.all_cons, List.all_nil]
  rw [show windowAt 700 300 255 0 = ((0 : ℚ), (300 : ℚ)) from by
        unfold windowAt; push_cast; norm_num,
      show windowAt 700 300 255 1 = ((255 : ℚ), (555 : ℚ)) from by
        unfold windowAt; push_cast; norm_num,
      show windowAt 700 300 255 2 = ((510 : ℚ), (700 : ℚ)) from by
        unfold windowAt; push_cast; norm_num]
  decide

/-- C2 witness: on `covSegs` and a 700-second video the amended no-gap
statement holds. -/
theorem chunk_transcript_no_gap_witness :
    covSegs ≠ [] ∧ (0 : ℚ) < 700 ∧
    (⋃ c ∈ chunk_transcript covSegs 700 300 45 CONFIG,
      Set.Ico c.start_time c.end_time = Set.Ico (0 : ℚ) 700) :=
  ⟨by decide, by decide,
   chunk_transcript_no_gap covSegs 700 300 45 (by decide) (by decide)
     cov_hwin (by decide)⟩

/-! ## C3 — coverage invariant of the Window Chunker -/

theorem pairwise_le_getLast (l : List Segment)
    (h : l.Pairwise fun a b => a.start ≤ b.start) (hne : l ≠ [])
    (a : Segment) (ha : a ∈ l) : a.start ≤ (l.getLast hne).start := by
  induction l with
  | nil => cases ha
  | cons x xs ih =>
    rcases List.mem_cons.mp ha with rfl | ha
    · by_cases hxs : xs = []
      · subst hxs
        exact le_of_eq rfl
      · rw [List.getLast_cons hxs]
        exact (List.pairwise_cons.mp h).1 _ (List.getLast_mem hxs)
    · have hxs2 : xs ≠ [] := List.ne_nil_of_mem ha
      rw [List.getLast_cons hxs2]
      exact ih (List.pairwise_cons.mp h).2 hxs2 ha

theorem lastChunkEnd_le (segments : List Segment) (D : ℚ) (cd ov : ℤ)
    (hD : 0 < D) :
    lastChunkEnd (slidingChunks segments D (effDuration cd)
      (chunkStep CONFIG cd ov)) ≤ D := by
  have hs := chunkStep_pos cd ov
  unfold lastChunkEnd
  cases hgl : (slidingChunks segments D (effDuration cd)
      (chunkStep CONFIG cd ov)).getLast? with
  | none => exact le_of_lt hD
  | some c =>
    obtain ⟨w, hw, -, hwe, -⟩ := chunk_mem_slidingChunks segments D _ _ c
      (List.mem_of_mem_getLast? hgl)
    obtain ⟨⟨k, hk, hkw⟩, -⟩ := (mem_keptWindows segments D _ _ w).mp hw
    obtain ⟨-, -, hb2⟩ :=
      windowAt_bounds D (effDuration cd) (chunkStep CONFIG cd ov) k hD hs hk
    show c.end_time ≤ D
    rw [hwe, ← hkw]
    exact hb2

/-- Every sliding-pass chunk survives into `chunk_transcript`'s result,
whatever the tail handling does. -/
theorem sliding_subset_chunk_transcript (segments : List Segment) (D : ℚ)
    (cd ov : ℤ) (hne : segments ≠ [])
    (hlong : ¬ (D ≤ ((effDuration cd : ℤ) : ℚ))) (c : Chunk)
    (hc : c ∈ slidingChunks segments D (effDuration cd)
      (chunkStep CONFIG cd ov)) :
    c ∈ chunk_transcript segments D cd ov CONFIG := by
  unfold chunk_transcript
  rw [if_neg hne, if_neg hlong, List.getLast?_eq_getLast segments hne]
  simp only []
  split
  · split
    · exact hc
    · exact List.mem_append_left _ hc
  · exact hc

/-- C3: for sentences ordered by start offset with nonnegative start
offsets (and a nonnegative overlap argument, as in every call site), every
sentence appears in at least one chunk of `chunk_transcript` — sentences
beyond the last regular window are captured by the appended tail chunk. -/
theorem chunk_transcript_covers_segments (segments : List Segment) (D : ℚ)
    (cd ov : ℤ)
    (hsorted : segments.Pairwise fun a b => a.start ≤ b.start)
    (hnn : ∀ s ∈ segments, 0 ≤ s.start) (hov : 0 ≤ ov) :
    ∀ seg ∈ segments, ∃ c ∈ chunk_transcript segments D cd ov CONFIG,
      seg ∈ c.segments := by
  intro seg hseg
  have hne : segments ≠ [] := List.ne_nil_of_mem hseg
  by_cases hshort : D ≤ ((effDuration cd : ℤ) : ℚ)
  · refine ⟨{ chunk_index := 0, start_time := 0, end_time := D,
              segments := segments }, ?_, hseg⟩
    unfold chunk_transcript
    rw [if_neg hne, if_pos hshort]
    exact List.mem_singleton.mpr rfl
  · have hs := chunkStep_pos cd ov
    have hsd := chunkStep_le_effDuration cd ov
    have hD : 0 < D := by
      have := effDuration_ge cd
      push_neg at hshort
      have h180 : (180 : ℚ) ≤ ((effDuration cd : ℤ) : ℚ) := by
        exact_mod_cast this
      linarith
    by_cases hcov : ∃ k, k < numWindows D (chunkStep CONFIG cd ov) ∧
        (windowAt D (effDuration cd) (chunkStep CONFIG cd ov) k).1 ≤
          seg.start ∧
        seg.start < (windowAt D (effDuration cd) (chunkStep CONFIG cd ov) k).2
    · obtain ⟨k, hk, h1, h2⟩ := hcov
      have hmemws : seg ∈ windowSegs segments
          (windowAt D (effDuration cd) (chunkStep CONFIG cd ov) k).1
          (windowAt D (effDuration cd) (chunkStep CONFIG cd ov) k).2 := by
        unfold windowSegs
        refine List.mem_filter.mpr ⟨hseg, ?_⟩
        simp [h1, h2]
      have hwmem : windowAt D (effDuration cd) (chunkStep CONFIG cd ov) k ∈
          keptWindows segments D (effDuration cd) (chunkStep CONFIG cd ov) := by
        refine (mem_keptWindows segments D _ _ _).mpr
          ⟨⟨k, hk, rfl⟩, List.ne_nil_of_mem hmemws⟩
      obtain ⟨c, hc, -, -, hcseg⟩ := window_chunk_exists segments D
        (effDuration cd) (chunkStep CONFIG cd ov) _ hwmem
      refine ⟨c, sliding_subset_chunk_transcript segments D cd ov hne
        hshort c hc, ?_⟩
      rw [hcseg]
      exact hmemws
    · push_neg at hcov
      have hge : D ≤ seg.start := by
        by_contra hlt
        push_neg at hlt
        obtain ⟨k, hk, h1, h2⟩ := window_cover D (effDuration cd)
          (chunkStep CONFIG cd ov) seg.start hs hsd (hnn seg hseg) hlt
        exact absurd h2 (not_lt.mpr (hcov k hk h1))
      have hlce := lastChunkEnd_le segments D cd ov hD
      have hlastge : seg.start ≤ (segments.getLast hne).start :=
        pairwise_le_getLast segments hsorted hne seg hseg
      have htail : (segments.getLast hne).start ≥
          lastChunkEnd (slidingChunks segments D (effDuration cd)
            (chunkStep CONFIG cd ov)) :=
        le_trans hlce (le_trans hge hlastge)
      have hmemtail : seg ∈ tailSegments segments
          (lastChunkEnd (slidingChunks segments D (effDuration cd)
            (chunkStep CONFIG cd ov))) ov := by
        unfold tailSegments
        refine List.mem_filter.mpr ⟨hseg, ?_⟩
        have hovq : (0 : ℚ) ≤ (ov : ℚ) := by exact_mod_cast hov
        have : lastChunkEnd (slidingChunks segments D (effDuration cd)
            (chunkStep CONFIG cd ov)) - (ov : ℚ) ≤ seg.start := by
          linarith
        simpa using this
      have hts : tailSegments segments
          (lastChunkEnd (slidingChunks segments D (effDuration cd)
            (chunkStep CONFIG cd ov))) ov ≠ [] :=
        List.ne_nil_of_mem hmemtail
      have hform := chunk_transcript_eq_sliding_append_tail segments D cd ov
        hne hshort htail hts
      refine ⟨{ chunk_index := (slidingChunks segments D (effDuration cd)
                  (chunkStep CONFIG cd ov)).length,
                start_time := lastChunkEnd (slidingChunks segments D
                  (effDuration cd) (chunkStep CONFIG cd ov)) - (ov : ℚ),
                end_time := D,
                segments := tailSegments segments
                  (lastChunkEnd (slidingChunks segments D (effDuration cd)
                    (chunkStep CONFIG cd ov))) ov }, ?_, hmemtail⟩
      rw [hform]
      exact List.mem_append_right _ (List.mem_singleton.mpr rfl)

/-- C3 witness: a sorted sentence list whose last sentence starts past the
video end (only the tail chunk can catch it). -/
theorem chunk_transcript_covers_segments_witness :
    (([{ text := "a".data, start := 0, duration := 1 },
       { text := "b".data, start := 750, duration := 1 }] :
        List Segment).Pairwise fun a b => a.start ≤ b.start) ∧
    (∀ seg ∈ ([{ text := "a".data, start := 0, duration := 1 },
               { text := "b".data, start := 750, duration := 1 }] :
        List Segment),
      ∃ c ∈ chunk_transcript
          [{ text := "a".data, start := 0, duration := 1 },
           { text := "b".data, start := 750, duration := 1 }] 700 300 45
          CONFIG, seg ∈ c.segments) :=
  ⟨by decide,
   chunk_transcript_covers_segments
     [{ text := "a".data, start := 0, duration := 1 },
      { text := "b".data, start := 750, duration := 1 }] 700 300 45
     (by decide) (by decide) (by decide)⟩

/-! ## C7 — idempotence of the Sentence Merger

Structural facts about the text primitives, then about the merger's
output, then the re-run computation. -/

/-- A whitespace-free nonempty word (the shape of `pySplit` results). -/
def goodWord (w : List Char) : Bool :=
  !w.isEmpty && w.all fun c => !c.isWhitespace

/-- A nonempty text with no leading or trailing whitespace (the shape of
`pyStrip` results and of the merger's sentence texts). -/
def goodText (l : List Char) : Bool :=
  !l.isEmpty && (l.head?.all fun c => !c.isWhitespace) &&
    (l.getLast?.all fun c => !c.isWhitespace)

theorem dropWhile_eq_self_of_head (p : Char → Bool) (l : List Char)
    (h : (l.head?.all fun c => !p c) = true) : l.dropWhile p = l := by
  cases l with
  | nil => rfl
  | cons c cs =>
    simp only [List.head?_cons, Option.all_some, Bool.not_eq_true'] at h
    simp [List.dropWhile_cons, h]

theorem pyStrip_of_goodText (l : List Char) (h : goodText l = true) :
    pyStrip l = l := by
  unfold goodText at h
  simp only [Bool.and_eq_true] at h
  unfold pyStrip
  rw [dropWhile_eq_self_of_head _ _ h.1.2]
  rw [dropWhile_eq_self_of_head _ _ (by rw [List.head?_reverse]; exact h.2)]
  exact List.reverse_reverse l

theorem head_dropWhile_all (p : Char → Bool) (l : List Char) :
    ((l.dropWhile p).head?.all fun c => !p c) = true := by
  induction l with
  | nil => rfl
  | cons c cs ih =>
    rw [List.dropWhile_cons]
    by_cases h : p c = true
    · rw [if_pos h]; exact ih
    · rw [if_neg h]
      simp only [List.head?_cons, Option.all_some, Bool.not_eq_true']
      exact Bool.not_eq_true _ ▸ (by simpa using h)

theorem getLast_dropWhile (p : Char → Bool) (l : List Char)
    (h : l.dropWhile p ≠ []) : (l.dropWhile p).getLast? = l.getLast? := by
  induction l with
  | nil => rfl
  | cons c cs ih =>
    rw [List.dropWhile_cons]
    by_cases hp : p c = true
    · rw [List.dropWhile_cons, if_pos hp] at h
      rw [if_pos hp, ih h, List.getLast?_cons]
      cases hcs : cs.getLast? with
      | none =>
        have : cs.dropWhile p = [] := by
          cases cs with
          | nil => rfl
          | cons d ds => simp at hcs
        exact absurd this h
      | some d => rfl
    · rw [if_neg hp]

theorem not_isEmpty_iff (l : List Char) : (!l.isEmpty) = true ↔ l ≠ [] := by
  cases l <;> simp

theorem goodText_ne_nil (l : List Char) (h : goodText l = true) : l ≠ [] := by
  unfold goodText at h
  simp only [Bool.and_eq_true] at h
  exact (not_isEmpty_iff l).mp h.1.1

theorem goodText_pyStrip (l : List Char) (h : pyStrip l ≠ []) :
    goodText (pyStrip l) = true := by
  unfold pyStrip at *
  have hl2ne : (l.dropWhile Char.isWhitespace).reverse.dropWhile
      Char.isWhitespace ≠ [] := by
    intro he
    rw [he] at h
    exact h rfl
  unfold goodText
  simp only [Bool.and_eq_true]
  refine ⟨⟨?_, ?_⟩, ?_⟩
  · exact (not_isEmpty_iff _).mpr h
  · rw [List.head?_reverse]
    rw [getLast_dropWhile _ _ hl2ne, List.getLast?_reverse]
    exact head_dropWhile_all _ l
  · rw [List.getLast?_reverse]
    exact head_dropWhile_all _ (l.dropWhile Char.isWhitespace).reverse

theorem goodWord_goodText (w : List Char) (h : goodWord w = true) :
    goodText w = true := by
  unfold goodWord at h
  unfold goodText
  simp only [Bool.and_eq_true] at *
  obtain ⟨hne, hall⟩ := h
  have hall2 := List.all_eq_true.mp hall
  cases w with
  | nil => simp at hne
  | cons c cs =>
    refine ⟨⟨by simp, ?_⟩, ?_⟩
    · simp only [List.head?_cons, Option.all_some]
      exact hall2 c (List.mem_cons_self _ _)
    · have hmem := List.getLast_mem (l := c :: cs) (by simp)
      rw [List.getLast?_eq_getLast _ (by simp)]
      simp only [Option.all_some]
      exact hall2 _ hmem

theorem goodText_pyJoin :
    ∀ (words : List (List Char)), words ≠ [] →
      (∀ w ∈ words, goodText w = true) →
      goodText (pyJoin words) = true := by
  intro words
  induction words with
  | nil => intro h; exact absurd rfl h
  | cons w ws ih =>
    intro _ h
    cases ws with
    | nil => exact h w (List.mem_cons_self _ _)
    | cons v vs =>
      have hjoin : pyJoin (w :: v :: vs) = w ++ ' ' :: pyJoin (v :: vs) := rfl
      have hwgood := h w (List.mem_cons_self _ _)
      have hrest : goodText (pyJoin (v :: vs)) = true :=
        ih (by simp) (fun x hx => h x (List.mem_cons_of_mem _ hx))
      have hwne : w ≠ [] := goodText_ne_nil w hwgood
      have hjne : pyJoin (v :: vs) ≠ [] := goodText_ne_nil _ hrest
      unfold goodText at hwgood hrest ⊢
      simp only [Bool.and_eq_true] at hwgood hrest ⊢
      rw [hjoin]
      refine ⟨⟨?_, ?_⟩, ?_⟩
      · refine (not_isEmpty_iff _).mpr ?_
        simp [hwne]
      · rw [List.head?_append]
        cases w with
        | nil => exact absurd rfl hwne
        | cons c cs =>
          simpa using hwgood.1.2
      · rw [List.getLast?_append]
        have hlcons : (' ' :: pyJoin (v :: vs)).getLast? =
            (pyJoin (v :: vs)).getLast? := by
          rw [List.getLast?_cons]
          cases hg : (pyJoin (v :: vs)).getLast? with
          | none =>
            cases hpj : pyJoin (v :: vs) with
            | nil => exact absurd hpj hjne
            | cons d ds => rw [hpj] at hg; simp at hg
          | some d => rfl
        rw [hlcons]
        cases hg : (pyJoin (v :: vs)).getLast? with
        | none =>
          cases hpj : pyJoin (v :: vs) with
          | nil => exact absurd hpj hjne
          | cons d ds => rw [hpj] at hg; simp at hg
        | some d =>
          rw [hg] at hrest
          simpa using hrest.2

theorem pySplitAux_words_good :
    ∀ (l acc : List Char), (acc.all fun c => !c.isWhitespace) = true →
      ∀ w ∈ pySplitAux acc l, goodWord w = true := by
  intro l
  induction l with
  | nil =>
    intro acc hacc w hw
    unfold pySplitAux at hw
    by_cases h : acc = []
    · rw [if_pos h] at hw
      cases hw
    · rw [if_neg h] at hw
      rcases List.mem_singleton.mp hw with rfl
      unfold goodWord
      simp only [Bool.and_eq_true]
      refine ⟨(not_isEmpty_iff _).mpr (by simpa using h), ?_⟩
      simp only [List.all_reverse]
      exact hacc
  | cons c cs ih =>
    intro acc hacc w hw
    unfold pySplitAux at hw
    by_cases hws : c.isWhitespace = true
    · rw [if_pos hws] at hw
      by_cases h : acc = []
      · rw [if_pos h] at hw
        exact ih [] rfl w hw
      · rw [if_neg h] at hw
        rcases List.mem_cons.mp hw with rfl | hw
        · unfold goodWord
          simp only [Bool.and_eq_true]
          refine ⟨(not_isEmpty_iff _).mpr (by simpa using h), ?_⟩
          simp only [List.all_reverse]
          exact hacc
        · exact ih [] rfl w hw
    · rw [if_neg hws] at hw
      refine ih (c :: acc) ?_ w hw
      simp only [List.all_cons, Bool.and_eq_true]
      exact ⟨by simpa using hws, hacc⟩

theorem pySplit_words_good (l : List Char) :
    ∀ w ∈ pySplit l, goodWord w = true :=
  pySplitAux_words_good l [] rfl

theorem pySplitAux_append_word :
    ∀ (w acc cs : List Char), (w.all fun c => !c.isWhitespace) = true →
      pySplitAux acc (w ++ cs) = pySplitAux (w.reverse ++ acc) cs := by
  intro w
  induction w with
  | nil => intro acc cs _; rfl
  | cons d ds ih =>
    intro acc cs hall
    simp only [List.all_cons, Bool.and_eq_true] at hall
    have hd : ¬ (d.isWhitespace = true) := by
      simpa using hall.1
    have hstep : pySplitAux acc (d :: (ds ++ cs)) =
        pySplitAux (d :: acc) (ds ++ cs) := by
      show (if d.isWhitespace = true then
          (if acc = [] then pySplitAux [] (ds ++ cs)
           else acc.reverse :: pySplitAux [] (ds ++ cs))
        else pySplitAux (d :: acc) (ds ++ cs)) =
          pySplitAux (d :: acc) (ds ++ cs)
      rw [if_neg hd]
    calc pySplitAux acc ((d :: ds) ++ cs)
        = pySplitAux (d :: acc) (ds ++ cs) := hstep
      _ = pySplitAux (ds.reverse ++ (d :: acc)) cs := ih (d :: acc) cs hall.2
      _ = pySplitAux ((d :: ds).reverse ++ acc) cs := by
          congr 1
          simp

theorem pySplit_pyJoin :
    ∀ (words : List (List Char)),
      (∀ w ∈ words, goodWord w = true) →
      pySplit (pyJoin words) = words := by
  intro words
  induction words with
  | nil => intro _; rfl
  | cons w ws ih =>
    intro h
    have hwgood := h w (List.mem_cons_self _ _)
    have hwall : (w.all fun c => !c.isWhitespace) = true := by
      unfold goodWord at hwgood
      simp only [Bool.and_eq_true] at hwgood
      exact hwgood.2
    have hwne : w ≠ [] := by
      unfold goodWord at hwgood
      simp only [Bool.and_eq_true] at hwgood
      exact (not_isEmpty_iff _).mp hwgood.1
    cases ws with
    | nil =>
      show pySplitAux [] (pyJoin [w]) = [w]
      have : pyJoin [w] = w ++ [] := by simp [pyJoin]
      rw [this, pySplitAux_append_word w [] [] hwall]
      unfold pySplitAux
      rw [if_neg (by simpa using hwne)]
      simp
    | cons v vs =>
      show pySplitAux [] (pyJoin (w :: v :: vs)) = w :: v :: vs
      have hjoin : pyJoin (w :: v :: vs) = w ++ ' ' :: pyJoin (v :: vs) := rfl
      rw [hjoin, pySplitAux_append_word w [] _ hwall]
      unfold pySplitAux
      rw [if_pos (by decide : (' ' : Char).isWhitespace = true)]
      rw [if_neg (by simpa using hwne)]
      rw [List.append_nil, List.reverse_reverse]
      exact congrArg (w :: ·)
        (ih (fun x hx => h x (List.mem_cons_of_mem _ hx)))

/-- Invariant carried through the merger's fold: every emitted sentence
text and every accumulated stripped fragment text is `goodText`. -/
def MergeInv (st : MergeState) : Prop :=
  (∀ s ∈ st.sentences, goodText s.text = true) ∧
  (∀ t ∈ st.cur_texts, goodText t = true)

theorem finalize_inv (st : MergeState) (h : MergeInv st) :
    MergeInv (finalizeSentence st) := by
  constructor
  · intro s hs
    unfold finalizeSentence at hs
    simp only at hs
    by_cases hct : st.cur_texts = []
    · rw [if_pos hct, List.append_nil] at hs
      exact h.1 s hs
    · rw [if_neg hct] at hs
      rcases List.mem_append.mp hs with hs | hs
      · exact h.1 s hs
      · rcases List.mem_singleton.mp hs with rfl
        exact goodText_pyJoin st.cur_texts hct h.2
  · intro t ht
    cases ht

theorem setStart_inv (st : MergeState) (seg : Segment) (h : MergeInv st) :
    MergeInv (setStart st seg) := by
  unfold setStart
  split
  · exact ⟨h.1, h.2⟩
  · exact h

theorem forceSplitStep_inv (config : TranscriptConfig) (st : MergeState)
    (seg : Segment) (h : MergeInv st) :
    MergeInv (forceSplitStep config st seg) := by
  unfold forceSplitStep
  split
  · have hf := finalize_inv st h
    exact ⟨hf.1, hf.2⟩
  · exact h

theorem appendSeg_inv (st : MergeState) (text : List Char) (seg : Segment)
    (h : MergeInv st) (htext : goodText text = true) :
    MergeInv (appendSeg st text seg) := by
  refine ⟨h.1, ?_⟩
  intro t ht
  rcases List.mem_append.mp ht with ht | ht
  · exact h.2 t ht
  · rcases List.mem_singleton.mp ht with rfl
    exact htext

theorem mergeStep_inv (config : TranscriptConfig) (st : MergeState)
    (seg : Segment) (h : MergeInv st) :
    MergeInv (mergeStep config st seg) := by
  unfold mergeStep
  by_cases htext : pyStrip seg.text = []
  · rw [if_pos htext]
    exact h
  · rw [if_neg htext]
    have hgood : goodText (pyStrip seg.text) = true := goodText_pyStrip _ htext
    have h3 : MergeInv (appendSeg (forceSplitStep config (setStart st seg)
        seg) (pyStrip seg.text) seg) :=
      appendSeg_inv _ _ _ (forceSplitStep_inv config _ _
        (setStart_inv st seg h)) hgood
    show MergeInv (if (find_sentence_boundary (pyJoin (appendSeg
        (forceSplitStep config (setStart st seg) seg) (pyStrip seg.text)
        seg).cur_texts)).isSome = true then
      finalizeSentence (appendSeg (forceSplitStep config (setStart st seg)
        seg) (pyStrip seg.text) seg)
    else appendSeg (forceSplitStep config (setStart st seg) seg)
      (pyStrip seg.text) seg)
    split
    · exact finalize_inv _ h3
    · exact h3

theorem foldl_mergeStep_inv (config : TranscriptConfig)
    (segments : List Segment) :
    ∀ (st : MergeState), MergeInv st →
      MergeInv (segments.foldl (mergeStep config) st) := by
  induction segments with
  | nil => intro st h; exact h
  | cons seg rest ih =>
    intro st h
    exact ih _ (mergeStep_inv config st seg h)

/-- The merger's output texts are `goodText`, and any output sentence
longer than the duration cap is a safety-net piece: at most
`MAX_SENTENCE_WORDS` words and already whitespace-normalized. -/
theorem merge_output_structure (segments : List Segment) :
    ∀ s ∈ merge_segments_into_sentences segments CONFIG,
      goodText s.text = true ∧
      (s.duration > CONFIG.MAX_SENTENCE_DURATION_SECONDS →
        (pySplit s.text).length ≤ CONFIG.MAX_SENTENCE_WORDS ∧
        pyJoin (pySplit s.text) = s.text) := by
  intro s hs
  unfold merge_segments_into_sentences at hs
  by_cases hne : segments = []
  · rw [if_pos hne] at hs
    cases hs
  · rw [if_neg hne] at hs
    simp only at hs
    set st0 := segments.foldl (mergeStep CONFIG) initMergeState with hst0
    have hinv0 : MergeInv st0 :=
      foldl_mergeStep_inv CONFIG segments initMergeState
        ⟨(fun _ hs => nomatch hs), (fun _ ht => nomatch ht)⟩
    have hinv : MergeInv (if st0.cur_texts ≠ [] then finalizeSentence st0
        else st0) := by
      split
      · exact finalize_inv _ hinv0
      · exact hinv0
    set st1 := if st0.cur_texts ≠ [] then finalizeSentence st0 else st0
    rcases List.mem_flatMap.mp hs with ⟨t, htmem, hsplit⟩
    have htgood : goodText t.text = true := hinv.1 t htmem
    unfold safetyNetSplit at hsplit
    by_cases hdur : t.duration > CONFIG.MAX_SENTENCE_DURATION_SECONDS
    · rw [if_pos hdur] at hsplit
      rcases List.mem_map.mp hsplit with ⟨i, himem, rfl⟩
      have hW : CONFIG.MAX_SENTENCE_WORDS = 80 := rfl
      have hilen : i < (pySplit t.text).length := by
        simp only [wordChunkStarts, List.mem_map, List.mem_range, hW] at himem
        obtain ⟨j, hj, rfl⟩ := himem
        omega
      have hslicene : ((pySplit t.text).drop i).take
          CONFIG.MAX_SENTENCE_WORDS ≠ [] := by
        intro hq
        rcases List.take_eq_nil_iff.mp hq with hq | hq
        · rw [hW] at hq; omega
        · exact absurd (List.drop_eq_nil_iff.mp hq) (by omega)
      have hslicegood : ∀ w ∈ ((pySplit t.text).drop i).take
          CONFIG.MAX_SENTENCE_WORDS, goodWord w = true := fun w hw =>
        pySplit_words_good t.text w
          (List.mem_of_mem_drop (List.mem_of_mem_take hw))
      refine ⟨goodText_pyJoin _ hslicene
        (fun w hw => goodWord_goodText w (hslicegood w hw)), ?_⟩
      intro _
      have hsp : pySplit (pyJoin (((pySplit t.text).drop i).take
          CONFIG.MAX_SENTENCE_WORDS)) =
          ((pySplit t.text).drop i).take CONFIG.MAX_SENTENCE_WORDS :=
        pySplit_pyJoin _ hslicegood
      constructor
      · show (pySplit (pyJoin (((pySplit t.text).drop i).take
          CONFIG.MAX_SENTENCE_WORDS))).length ≤ CONFIG.MAX_SENTENCE_WORDS
        rw [hsp]
        simp [List.length_take]
      · show pyJoin (pySplit (pyJoin (((pySplit t.text).drop i).take
          CONFIG.MAX_SENTENCE_WORDS))) = _
        rw [hsp]
    · rw [if_neg hdur] at hsplit
      rcases List.mem_singleton.mp hsplit with rfl
      exact ⟨htgood, fun hd => absurd hd hdur⟩

theorem shouldForceSplit_empty (sen : List Segment) (x : Option ℚ) :
    shouldForceSplit CONFIG
      { sentences := sen, cur_texts := [], cur_start := x,
        cur_duration := 0, cur_count := 0 } = false := by
  unfold shouldForceSplit
  rw [if_neg (by show ¬ ((0 : ℚ) ≥ 24); norm_num)]
  rw [if_neg (by show ¬ ((0 : ℕ) ≥ 20); norm_num)]
  simp [CONFIG]

/-- One re-run iteration on an already-stripped, boundary-terminated
sentence starting from an empty accumulator: the sentence is re-emitted
verbatim and the accumulator stays empty. -/
theorem mergeStep_clean (sen : List Segment) (s : Segment)
    (hgood : goodText s.text = true)
    (hbound : (find_sentence_boundary s.text).isSome = true) :
    mergeStep CONFIG
      { sentences := sen, cur_texts := [], cur_start := none,
        cur_duration := 0, cur_count := 0 } s =
      { sentences := sen ++ [s], cur_texts := [], cur_start := none,
        cur_duration := 0, cur_count := 0 } := by
  have htext := pyStrip_of_goodText _ hgood
  have hne := goodText_ne_nil _ hgood
  unfold mergeStep
  rw [htext, if_neg hne]
  have hset : setStart
      { sentences := sen, cur_texts := [], cur_start := none,
        cur_duration := 0, cur_count := 0 } s =
      { sentences := sen, cur_texts := [], cur_start := some s.start,
        cur_duration := 0, cur_count := 0 } := by
    unfold setStart
    rw [if_pos rfl]
  rw [hset]
  have hforce : forceSplitStep CONFIG
      { sentences := sen, cur_texts := [], cur_start := some s.start,
        cur_duration := 0, cur_count := 0 } s =
      { sentences := sen, cur_texts := [], cur_start := some s.start,
        cur_duration := 0, cur_count := 0 } := by
    unfold forceSplitStep
    rw [if_neg (by rw [shouldForceSplit_empty]; simp)]
  rw [hforce]
  have happ : appendSeg
      { sentences := sen, cur_texts := [], cur_start := some s.start,
        cur_duration := 0, cur_count := 0 } s.text s =
      { sentences := sen, cur_texts := [s.text],
        cur_start := some s.start, cur_duration := 0 + s.duration,
        cur_count := 0 + 1 } := rfl
  rw [happ]
  dsimp only
  rw [show pyJoin [s.text] = s.text from rfl, if_pos hbound]
  unfold finalizeSentence
  dsimp only
  simp only [MergeState.mk.injEq, and_true]
  rw [if_neg (by simp)]
  congr 1
  rw [show pyJoin [s.text] = s.text from rfl]
  simp

theorem foldl_rerun (out : List Segment)
    (h : ∀ s ∈ out, goodText s.text = true ∧
      (find_sentence_boundary s.text).isSome = true) :
    ∀ sen : List Segment,
      out.foldl (mergeStep CONFIG)
        { sentences := sen, cur_texts := [], cur_start := none,
          cur_duration := 0, cur_count := 0 } =
      { sentences := sen ++ out, cur_texts := [], cur_start := none,
        cur_duration := 0, cur_count := 0 } := by
  induction out with
  | nil => intro sen; simp
  | cons s rest ih =>
    intro sen
    rw [List.foldl_cons,
        mergeStep_clean sen s (h s (List.mem_cons_self _ _)).1
          (h s (List.mem_cons_self _ _)).2,
        ih (fun x hx => h x (List.mem_cons_of_mem _ hx)) (sen ++ [s])]
    simp

/-- The safety net leaves an already-normalized, in-bounds sentence
alone. -/
theorem safetyNetSplit_id (s : Segment) (hgood : goodText s.text = true)
    (hR : s.duration > CONFIG.MAX_SENTENCE_DURATION_SECONDS →
      (pySplit s.text).length ≤ CONFIG.MAX_SENTENCE_WORDS ∧
      pyJoin (pySplit s.text) = s.text) :
    safetyNetSplit CONFIG s = [s] := by
  unfold safetyNetSplit
  by_cases hdur : s.duration > CONFIG.MAX_SENTENCE_DURATION_SECONDS
  · rw [if_pos hdur]
    obtain ⟨hlen, hjs⟩ := hR hdur
    have hwne : pySplit s.text ≠ [] := by
      intro hq
      rw [hq] at hjs
      exact goodText_ne_nil _ hgood hjs.symm
    have hlen1 : 1 ≤ (pySplit s.text).length := by
      cases hq : pySplit s.text with
      | nil => exact absurd hq hwne
      | cons a l => simp [hq]
    have hW : CONFIG.MAX_SENTENCE_WORDS = 80 := rfl
    have hstarts : wordChunkStarts CONFIG.MAX_SENTENCE_WORDS
        (pySplit s.text).length = [0] := by
      unfold wordChunkStarts
      rw [hW] at hlen ⊢
      rw [show ((pySplit s.text).length + 80 - 1) / 80 = 1 by omega]
      rfl
    rw [hstarts, List.map_cons, List.map_nil]
    have hslice : ((pySplit s.text).drop 0).take CONFIG.MAX_SENTENCE_WORDS =
        pySplit s.text := by
      rw [List.drop_zero]
      exact List.take_of_length_le hlen
    rw [hslice, hjs, if_neg hwne, if_neg hwne]
    have hq : ((pySplit s.text).length : ℚ) ≠ 0 := by
      exact_mod_cast Nat.one_le_iff_ne_zero.mp hlen1
    congr 1
    · have h2 : s.start + s.duration * ((0 : ℕ) : ℚ) /
          ((pySplit s.text).length : ℚ) = s.start := by
        rw [Nat.cast_zero, mul_zero, zero_div, add_zero]
      have h3 : s.duration * (((pySplit s.text).length : ℚ) /
          ((pySplit s.text).length : ℚ)) = s.duration := by
        rw [div_self hq, mul_one]
      rw [h2, h3]
  · rw [if_neg hdur]

theorem flatMap_safety_id (l : List Segment)
    (h : ∀ s ∈ l, safetyNetSplit CONFIG s = [s]) :
    l.flatMap (safetyNetSplit CONFIG) = l := by
  induction l with
  | nil => rfl
  | cons s rest ih =>
    rw [List.flatMap_cons, h s (List.mem_cons_self _ _),
        ih (fun x hx => h x (List.mem_cons_of_mem _ hx))]
    rfl

/-- Re-running the merger on a list of good, boundary-terminated,
safety-net-stable sentences (each sentence one fragment) returns the list
unchanged. -/
theorem merge_rerun (out : List Segment)
    (h : ∀ s ∈ out, goodText s.text = true ∧
      (find_sentence_boundary s.text).isSome = true ∧
      (s.duration > CONFIG.MAX_SENTENCE_DURATION_SECONDS →
        (pySplit s.text).length ≤ CONFIG.MAX_SENTENCE_WORDS ∧
        pyJoin (pySplit s.text) = s.text)) :
    merge_segments_into_sentences out CONFIG = out := by
  cases hout : out with
  | nil => rfl
  | cons s rest =>
    rw [← hout]
    have hne : out ≠ [] := by rw [hout]; simp
    unfold merge_segments_into_sentences
    rw [if_neg hne]
    simp only []
    have hfold := foldl_rerun out
      (fun x hx => ⟨(h x hx).1, (h x hx).2.1⟩) []
    have hinit : initMergeState =
        { sentences := ([] : List Segment), cur_texts := [],
          cur_start := none, cur_duration := 0, cur_count := 0 } := rfl
    rw [hinit, hfold]
    rw [if_neg (by simp)]
    rw [List.nil_append]
    exact flatMap_safety_id out
      (fun x hx => safetyNetSplit_id x (h x hx).1 (h x hx).2.2)

/-- C7: the Sentence Merger is idempotent on its own output, given that
every output sentence is punctuation-terminated (its text contains a
sentence boundary): feeding the produced sentences back in as fragments
yields exactly the same sentence list. -/
theorem merge_idempotent (frags : List Segment)
    (hb : ∀ s ∈ merge_segments_into_sentences frags CONFIG,
      (find_sentence_boundary s.text).isSome = true) :
    merge_segments_into_sentences
      (merge_segments_into_sentences frags CONFIG) CONFIG =
      merge_segments_into_sentences frags CONFIG := by
  apply merge_rerun
  intro s hs
  obtain ⟨hgood, hR⟩ := merge_output_structure frags s hs
  exact ⟨hgood, hb s hs, hR⟩

/-- C7 witness: one punctuation-terminated caption fragment. -/
theorem merge_idempotent_witness :
    (∀ s ∈ merge_segments_into_sentences
        [{ text := "Hello world.".data, start := 0, duration := 5 }] CONFIG,
      (find_sentence_boundary s.text).isSome = true) ∧
    merge_segments_into_sentences (merge_segments_into_sentences
        [{ text := "Hello world.".data, start := 0, duration := 5 }] CONFIG)
      CONFIG =
      merge_segments_into_sentences
        [{ text := "Hello world.".data, start := 0, duration := 5 }]
        CONFIG := by
  have hmerge : merge_segments_into_sentences
      [{ text := "Hello world.".data, start := 0, duration := 5 }] CONFIG =
      [{ text := "Hello world.".data, start := 0, duration := 5 }] :=
    merge_rerun _ (by
      intro s hs
      rcases List.mem_singleton.mp hs with rfl
      exact ⟨by decide, by decide, fun h => absurd h (by decide)⟩)
  constructor
  · intro s hs
    rw [hmerge] at hs
    rcases List.mem_singleton.mp hs with rfl
    decide
  · exact merge_idempotent _ (by
      intro s hs
      rw [hmerge] at hs
      rcases List.mem_singleton.mp hs with rfl
      decide)

/-! ## C5 — global-cache short-circuit clone -/

/-- C5: when submission by a user who does not already own the item finds
a READY video for the same source id (from any owner), the route returns
an immediately-READY clone for the new owner with an empty job id and
enqueues nothing (so neither the source-fetch nor the generation
collaborators run); the clone copies the source's transcript and notes
artifacts but zeroes `notes_tokens` and `chapters_tokens`, and the user
table — including `videos_analyzed` — is unchanged. -/
theorem create_video_cache_short_circuit (db : Db) (user_id : ℕ)
    (url : String) (y : String) (now : ℕ) (u : UserRow) (cv : VideoRow)
    (t : TranscriptRow) (n : NotesRow)
    (hu : db.users.find? (fun x => decide (x.id = user_id)) = some u)
    (hlim : u.videos_analyzed < u.video_limit)
    (hdup : db.videos.find? (fun v =>
        decide (v.user_id = user_id) &&
        decide (v.youtube_video_id = y)) = none)
    (hcache : find_ready_video_globally db y = some cv)
    (ht : get_transcript_by_video_id db cv.id = some t)
    (hn : get_notes_by_video_id db cv.id = some n) :
    (create_video db user_id url (some y) now).enqueued = false ∧
    (∃ newv : VideoRow,
        (create_video db user_id url (some y) now).response =
          .ok (newv, "", "Video instantly loaded from cache!") ∧
        newv.status = VideoStatus.READY ∧
        newv.user_id = user_id ∧
        newv.youtube_video_id = cv.youtube_video_id ∧
        newv.title = cv.title) ∧
    (create_video db user_id url (some y) now).db.users = db.users ∧
    (create_video db user_id url (some y) now).db.jobs = db.jobs ∧
    (create_video db user_id url (some y) now).db.transcripts =
      db.transcripts ++
        [{ video_id := db.next_video_id, language_code := t.language_code,
           provider := t.provider, raw_text := t.raw_text,
           segments := t.segments }] ∧
    (create_video db user_id url (some y) now).db.notes =
      db.notes ++
        [{ video_id := db.next_video_id, summary := n.summary,
           bullets := n.bullets, key_timestamps := n.key_timestamps,
           flashcards := n.flashcards, action_items := n.action_items,
           topics := n.topics, difficulty_level := n.difficulty_level,
           markdown_notes := n.markdown_notes, chapters := n.chapters,
           suggested_prompts := n.suggested_prompts,
           notes_model := n.notes_model, notes_tokens := 0,
           chapters_tokens := 0, was_truncated := n.was_truncated,
           raw_llm_output := none }] := by
  have hcv : create_video db user_id url (some y) now =
      { db := (clone_video_for_user db cv user_id url now).1,
        response := .ok ((clone_video_for_user db cv user_id url now).2, "",
          "Video instantly loaded from cache!"),
        enqueued := false } := by
    unfold create_video
    rw [hu]
    simp only [not_lt.mpr, hlim.not_le, if_neg]
    rw [hdup, hcache]
    simp
  rw [hcv]
  unfold clone_video_for_user
  rw [ht, hn]
  refine ⟨rfl, ⟨_, rfl, rfl, rfl, rfl, rfl⟩, rfl, rfl, rfl, rfl⟩

/-- Concrete database for the C5 witness: user 2 owns a READY copy of
source item `ytA` with full artifacts; user 1 (quota 0/3) submits it. -/
def cacheDb : Db :=
  { videos := [{ id := 10, user_id := 2, youtube_video_id := "ytA",
                 original_url := "urlA", title := some "T",
                 thumbnail_url := none, duration_seconds := none,
                 status := .READY, failure_reason := none,
                 processed_at := some 0 }],
    transcripts := [{ video_id := 10, language_code := "en",
                      provider := "youtube_auto", raw_text := "hello",
                      segments := [] }],
    notes := [{ video_id := 10, summary := "sum", bullets := [],
                key_timestamps := [], flashcards := [], action_items := [],
                topics := [], difficulty_level := "easy",
                markdown_notes := "", chapters := ["c1"],
                suggested_prompts := some ["p1"], notes_model := "gpt",
                notes_tokens := 7, chapters_tokens := 8,
                was_truncated := "N", raw_llm_output := none }],
    jobs := [], users := [{ id := 1, videos_analyzed := 0, video_limit := 3 }],
    next_video_id := 11 }

/-- C5 witness: user 1 submitting `ytA` over `cacheDb` gets the clone path:
nothing enqueued and the user table untouched. -/
theorem create_video_cache_short_circuit_witness :
    find_ready_video_globally cacheDb "ytA" =
      some { id := 10, user_id := 2, youtube_video_id := "ytA",
             original_url := "urlA", title := some "T",
             thumbnail_url := none, duration_seconds := none,
             status := .READY, failure_reason := none,
             processed_at := some 0 } ∧
    (create_video cacheDb 1 "urlB" (some "ytA") 5).enqueued = false ∧
    (create_video cacheDb 1 "urlB" (some "ytA") 5).db.users =
      cacheDb.users :=
  ⟨by decide,
   (create_video_cache_short_circuit cacheDb 1 "urlB" "ytA" 5
      { id := 1, videos_analyzed := 0, video_limit := 3 }
      { id := 10, user_id := 2, youtube_video_id := "ytA",
        original_url := "urlA", title := some "T", thumbnail_url := none,
        duration_seconds := none, status := .READY, failure_reason := none,
        processed_at := some 0 }
      { video_id := 10, language_code := "en", provider := "youtube_auto",
        raw_text := "hello", segments := [] }
      { video_id := 10, summary := "sum", bullets := [],
        key_timestamps := [], flashcards := [], action_items := [],
        topics := [], difficulty_level := "easy", markdown_notes := "",
        chapters := ["c1"], suggested_prompts := some ["p1"],
        notes_model := "gpt", notes_tokens := 7, chapters_tokens := 8,
        was_truncated := "N", raw_llm_output := none }
      (by decide) (by decide) (by decide) (by decide) (by decide)
      (by decide)).1,
   (create_video_cache_short_circuit cacheDb 1 "urlB" "ytA" 5
      { id := 1, videos_analyzed := 0, video_limit := 3 }
      { id := 10, user_id := 2, youtube_video_id := "ytA",
        original_url := "urlA", title := some "T", thumbnail_url := none,
        duration_seconds := none, status := .READY, failure_reason := none,
        processed_at := some 0 }
      { video_id := 10, language_code := "en", provider := "youtube_auto",
        raw_text := "hello", segments := [] }
      { video_id := 10, summary := "sum", bullets := [],
        key_timestamps := [], flashcards := [], action_items := [],
        topics := [], difficulty_level := "easy", markdown_notes := "",
        chapters := ["c1"], suggested_prompts := some ["p1"],
        notes_model := "gpt", notes_tokens := 7, chapters_tokens := 8,
        was_truncated := "N", raw_llm_output := none }
      (by decide) (by decide) (by decide) (by decide) (by decide)
      (by decide)).2.2.1⟩

/-! ## C6 — fail-fast join of the Parallel Generation Coordinator -/

/-- C6: if either parallel generation sub-task raises, the coordinator call
fails (for every completion order) with an error derived from that
sub-task's error, the unit's Job ends FAILED with the reason recorded as
`"AI error: Failed to generate <task>: <msg>"`, the video is FAILED, and
no Notes row is persisted. -/
theorem generation_fail_fast (video_id : ℕ)
    (ch : Except String ChaptersGen) (st : Except String StructuredGen)
    (order : Bool) (prompts : List String)
    (h : (∃ e, ch = .error e) ∨ (∃ e, st = .error e)) :
    (process_video_sync video_id (.ok ()) ch st order prompts).savedNotes =
      none ∧
    (process_video_sync video_id (.ok ()) ch st order prompts).videoStatus =
      .FAILED ∧
    (process_video_sync video_id (.ok ()) ch st order prompts).success =
      false ∧
    (process_video_sync video_id (.ok ()) ch st order prompts
      ).jobTrace.getLast? = some .FAILED ∧
    ∃ task msg,
      ((task = "chapters" ∧ ch = .error msg) ∨
       (task = "structured" ∧ st = .error msg)) ∧
      (process_video_sync video_id (.ok ()) ch st order prompts).jobError =
        some ("AI error: " ++ ("Failed to generate " ++ task ++ ": " ++ msg)) := by
  rcases h with ⟨e, rfl⟩ | ⟨e, rfl⟩
  · cases order with
    | true =>
      exact ⟨rfl, rfl, rfl, rfl, "chapters", e, Or.inl ⟨rfl, rfl⟩, rfl⟩
    | false =>
      cases st with
      | error e2 =>
        exact ⟨rfl, rfl, rfl, rfl, "structured", e2, Or.inr ⟨rfl, rfl⟩, rfl⟩
      | ok s =>
        exact ⟨rfl, rfl, rfl, rfl, "chapters", e, Or.inl ⟨rfl, rfl⟩, rfl⟩
  · cases ch with
    | error e1 =>
      cases order with
      | true =>
        exact ⟨rfl, rfl, rfl, rfl, "chapters", e1, Or.inl ⟨rfl, rfl⟩, rfl⟩
      | false =>
        exact ⟨rfl, rfl, rfl, rfl, "structured", e, Or.inr ⟨rfl, rfl⟩, rfl⟩
    | ok c =>
      cases order with
      | true =>
        exact ⟨rfl, rfl, rfl, rfl, "structured", e, Or.inr ⟨rfl, rfl⟩, rfl⟩
      | false =>
        exact ⟨rfl, rfl, rfl, rfl, "structured", e, Or.inr ⟨rfl, rfl⟩, rfl⟩

/-- C6 witness: a failing chapters sub-task alongside a successful
structured sub-task. -/
theorem generation_fail_fast_witness :
    ((∃ e, (Except.error "provider timeout" :
        Except String ChaptersGen) = .error e) ∨
     (∃ e, (Except.ok
        { summary := "s", bullets := [], key_timestamps := [],
          flashcards := [], action_items := [], topics := [],
          difficulty_level := "d", model_used := "m", tokens_used := 3 } :
        Except String StructuredGen) = .error e)) ∧
    (process_video_sync 1 (.ok ()) (.error "provider timeout")
      (.ok { summary := "s", bullets := [], key_timestamps := [],
             flashcards := [], action_items := [], topics := [],
             difficulty_level := "d", model_used := "m", tokens_used := 3 })
      true []).savedNotes = none ∧
    (process_video_sync 1 (.ok ()) (.error "provider timeout")
      (.ok { summary := "s", bullets := [], key_timestamps := [],
             flashcards := [], action_items := [], topics := [],
             difficulty_level := "d", model_used := "m", tokens_used := 3 })
      true []).videoStatus = .FAILED :=
  ⟨Or.inl ⟨"provider timeout", rfl⟩,
   (generation_fail_fast 1 (.error "provider timeout")
      (.ok { summary := "s", bullets := [], key_timestamps := [],
             flashcards := [], action_items := [], topics := [],
             difficulty_level := "d", model_used := "m", tokens_used := 3 })
      true [] (Or.inl ⟨"provider timeout", rfl⟩)).1,
   (generation_fail_fast 1 (.error "provider timeout")
      (.ok { summary := "s", bullets := [], key_timestamps := [],
             flashcards := [], action_items := [], topics := [],
             difficulty_level := "d", model_used := "m", tokens_used := 3 })
      true [] (Or.inl ⟨"provider timeout", rfl⟩)).2.1⟩

/-! ## C9 — terminal states and fresh resubmission -/

theorem le_foldr_max (l : List ℕ) (x : ℕ) (hx : x ∈ l) :
    x ≤ l.foldr max 0 := by
  induction l with
  | nil => cases hx
  | cons a rest ih =>
    rcases List.mem_cons.mp hx with rfl | hx
    · exact le_max_left _ _
    · exact le_trans (ih hx) (le_max_right _ _)

/-- C9: (a) within a worker run, a Job reaches COMPLETED or FAILED only as
the last status of its trace — no transition ever leaves a terminal
status; (b) the resubmission route (`reprocess_video`) mutates no Job row;
(c) the worker run triggered by a (re)submission only appends one
brand-new Job row, whose id differs from every existing row's. -/
theorem terminal_states_and_fresh_resubmission
    (db : Db) (vid uid : ℕ) (db' : Db) (v : ℕ)
    (hre : reprocess_video db vid uid = .ok (db', v)) :
    (∀ (video_id : ℕ) (fetchRes : Except String Unit)
        (ch : Except String ChaptersGen) (st : Except String StructuredGen)
        (ord : Bool) (prompts : List String) (s : JobStatus),
        s ∈ (process_video_sync video_id fetchRes ch st ord
              prompts).jobTrace.dropLast →
        s ≠ JobStatus.COMPLETED ∧ s ≠ JobStatus.FAILED) ∧
    db'.jobs = db.jobs ∧
    (∀ (jobs : List JobRow) (jvid : ℕ) (res : PipelineResult),
        ∃ newJob : JobRow,
          workerRunJobs jobs jvid res = jobs ++ [newJob] ∧
          ∀ j ∈ jobs, j.id ≠ newJob.id) := by
  refine ⟨?_, ?_, ?_⟩
  · intro video_id fetchRes ch st ord prompts s hs
    cases fetchRes with
    | error e =>
      simp [process_video_sync] at hs
      rcases hs with rfl | rfl <;> exact ⟨by simp, by simp⟩
    | ok u =>
      cases hgen : generate_ai_content_parallel ch st ord with
      | error e =>
        simp [process_video_sync, hgen] at hs
        rcases hs with rfl | rfl | rfl <;> exact ⟨by simp, by simp⟩
      | ok p =>
        simp [process_video_sync, hgen] at hs
        rcases hs with rfl | rfl | rfl <;> exact ⟨by simp, by simp⟩
  · unfold reprocess_video at hre
    cases hfind : db.videos.find? (fun v => decide (v.id = vid)) with
    | none => simp only [hfind] at hre; cases hre
    | some video =>
      simp only [hfind] at hre
      by_cases h1 : video.user_id ≠ uid
      · rw [if_pos h1] at hre; cases hre
      · rw [if_neg h1] at hre
        by_cases h2 : video.status ≠ VideoStatus.FAILED
        · rw [if_pos h2] at hre; cases hre
        · rw [if_neg h2] at hre
          cases hre
          rfl
  · intro jobs jvid res
    refine ⟨_, rfl, ?_⟩
    intro j hj heq
    have hle : j.id ≤ (jobs.map (·.id)).foldr max 0 :=
      le_foldr_max _ _ (List.mem_map_of_mem _ hj)
    have : j.id = freshJobId jobs := heq
    unfold freshJobId at this
    omega

/-- Concrete database for the C9 witness: one FAILED video owned by user 7
with its FAILED job row. -/
def reproDb : Db :=
  { videos := [{ id := 1, user_id := 7, youtube_video_id := "y",
                 original_url := "u", title := none, thumbnail_url := none,
                 duration_seconds := none, status := .FAILED,
                 failure_reason := some "err", processed_at := none }],
    transcripts := [], notes := [],
    jobs := [{ id := 1, video_id := 1, status := .FAILED,
               error_message := some "err" }],
    users := [], next_video_id := 2 }

/-- `reproDb` after resubmission: the video reset to PENDING, jobs
untouched. -/
def reproDbAfter : Db :=
  { reproDb with
    videos := [{ id := 1, user_id := 7, youtube_video_id := "y",
                 original_url := "u", title := none, thumbnail_url := none,
                 duration_seconds := none, status := .PENDING,
                 failure_reason := some "err", processed_at := none }] }

/-- C9 witness: resubmitting the failed video of `reproDb` succeeds and
leaves the Job table unchanged. -/
theorem terminal_states_and_fresh_resubmission_witness :
    reprocess_video reproDb 1 7 = .ok (reproDbAfter, 1) ∧
    reproDbAfter.jobs = reproDb.jobs :=
  ⟨rfl,
   (terminal_states_and_fresh_resubmission reproDb 1 7 reproDbAfter 1
      rfl).2.1⟩

/-- C10 witness: a 7201-second item is rejected. -/
theorem get_video_metadata_duration_cap_witness :
    ((7201 : ℤ) > MAX_VIDEO_DURATION) ∧
    ((get_video_metadata "abc".data
        { duration := 7201, title := "t".data, thumbnail := "u".data,
          uploader := "c".data } (fun _ => 0)).result =
      .error durationExceededMsg ∧
    (get_video_metadata "abc".data
        { duration := 7201, title := "t".data, thumbnail := "u".data,
          uploader := "c".data } (fun _ => 0)).attempts = 1) :=
  ⟨by decide,
   get_video_metadata_duration_cap "abc".data
     { duration := 7201, title := "t".data, thumbnail := "u".data,
       uploader := "c".data } (fun _ => 0) (by decide)⟩

end NoteTube
